import Mathlib

/-!
Verification of the `llvm-ir` textual parser (src/src/lib.rs, a nom-based
recursive-descent parser for an LLVM-IR dialect).

The Rust code is shallowly embedded: nom's `IResult` becomes the inductive
`IResult` below, parsers become functions `List Char → IResult α` (the input
byte slice `&[u8]` is modelled as a list of characters; all inputs of interest
are ASCII, so a character is a byte), and `panic!` — which aborts the process
in Rust — becomes the absorbing outcome `IResult.fatal`, which every
combinator propagates and no combinator recovers from.

The crate's `helper`, `types` and `datalayout` submodules are not part of the
sources under review; the lexical primitives and the type grammar they provide
are modelled from the specification (each such definition carries a
`Modelled from the spec:` doc comment).
-/

namespace LLVM

/-- Outcome of a nom parser.  `done rest v` is `IResult::Done(rest, v)`;
`error` is `IResult::Error(_)` (the error payload is not modelled);
`incomplete` is `IResult::Incomplete(_)`; `fatal` models a Rust `panic!`
reached during parsing (the process aborts; nothing catches it).  `fatal` is
also used for exhaustion of the recursion fuel of the model's recursive
grammars, which no input that is actually parsed below ever reaches. -/
inductive IResult (α : Type) : Type where
  | done : List Char → α → IResult α
  | error : IResult α
  | incomplete : IResult α
  | fatal : IResult α

/-- A nom parser over a byte slice. -/
def Parser (α : Type) : Type := List Char → IResult α

/-- Sequencing of parsers (the `>>` chaining of nom's `do_parse!`). -/
def pbind {α β : Type} (p : Parser α) (f : α → Parser β) : Parser β := fun inp =>
  match p inp with
  | .done rest a => f a rest
  | .error => .error
  | .incomplete => .incomplete
  | .fatal => .fatal

/-- A parser that consumes nothing and yields `a` (nom's `value!`). -/
def ppure {α : Type} (a : α) : Parser α := fun inp => .done inp a

/-- nom's `map!`. -/
def pmap {α β : Type} (f : α → β) (p : Parser α) : Parser β :=
  pbind p (fun a => ppure (f a))

/-- nom's `map_opt!`: fail (with `Error`) when the mapping function rejects. -/
def pmapOpt {α β : Type} (f : α → Option β) (p : Parser α) : Parser β := fun inp =>
  match p inp with
  | .done rest a =>
    match f a with
    | some b => .done rest b
    | none => .error
  | .error => .error
  | .incomplete => .incomplete
  | .fatal => .fatal

/-- A parser that always fails (the end of an `alt!` chain). -/
def pfail {α : Type} : Parser α := fun _ => .error

/-- nom's `alt!`: try `q` only when `p` returns `Error`.  `Incomplete` (and a
panic) stop the alternation. -/
def palt {α : Type} (p q : Parser α) : Parser α := fun inp =>
  match p inp with
  | .error => q inp
  | r => r

/-- nom's `complete!`: turn `Incomplete` into `Error`. -/
def pcomplete {α : Type} (p : Parser α) : Parser α := fun inp =>
  match p inp with
  | .incomplete => .error
  | r => r

/-- `alt!` over a list of branches. -/
def paltl {α : Type} (ps : List (Parser α)) : Parser α :=
  ps.foldr palt pfail

/-- nom's `alt_complete!`: every branch wrapped in `complete!`, then `alt!`. -/
def paltcl {α : Type} (ps : List (Parser α)) : Parser α :=
  paltl (ps.map pcomplete)

/-- nom's `tag!`: match a literal.  If the input is a proper prefix of the
tag, more input could still produce a match, so the result is `Incomplete`. -/
def ptag (s : String) : Parser Unit := fun inp =>
  let t := s.toList
  if t.isPrefixOf inp then .done (inp.drop t.length) ()
  else if inp.isPrefixOf t then .incomplete
  else .error

/-- nom's `char!`. -/
def pchar (c : Char) : Parser Unit := fun inp =>
  match inp with
  | [] => .incomplete
  | x :: rest => if x = c then .done rest () else .error

/-- nom's `take!(n)`. -/
def ptake (n : Nat) : Parser (List Char) := fun inp =>
  if n ≤ inp.length then .done (inp.drop n) (inp.take n) else .incomplete

/-- nom's `is_not!`: consume one or more characters not in `bad`. -/
def pisNotL (bad : List Char) : Parser (List Char) := fun inp =>
  let taken := inp.takeWhile (fun c => ¬ bad.contains c)
  if taken.isEmpty then .error else .done (inp.drop taken.length) taken

/-- nom's `opt!`: `Error` becomes `none` without consumption; `Incomplete`
propagates. -/
def popt {α : Type} (p : Parser α) : Parser (Option α) := fun inp =>
  match p inp with
  | .done rest a => .done rest (some a)
  | .error => .done inp none
  | .incomplete => .incomplete
  | .fatal => .fatal

/-- nom's `cond!`: run the parser only when the flag is set. -/
def pcond {α : Type} (b : Bool) (p : Parser α) : Parser (Option α) :=
  if b then pmap some p else ppure none

/-- nom's `not!`: succeed without consuming exactly when `p` fails. -/
def pnot {α : Type} (p : Parser α) : Parser Unit := fun inp =>
  match p inp with
  | .done _ _ => .error
  | .error => .done inp ()
  | .incomplete => .incomplete
  | .fatal => .fatal

/-- nom's `preceded!`. -/
def ppreceded {α β : Type} (p : Parser α) (q : Parser β) : Parser β :=
  pbind p (fun _ => q)

/-- nom's `terminated!`. -/
def pterminated {α β : Type} (p : Parser α) (q : Parser β) : Parser α :=
  pbind p (fun a => pbind q (fun _ => ppure a))

/-- nom's `delimited!`. -/
def pdelimited {α β γ : Type} (p : Parser α) (q : Parser β) (r : Parser γ) : Parser β :=
  pbind p (fun _ => pbind q (fun b => pbind r (fun _ => ppure b)))

/-- nom's `pair!`. -/
def ppair {α β : Type} (p : Parser α) (q : Parser β) : Parser (α × β) :=
  pbind p (fun a => pbind q (fun b => ppure (a, b)))

/-- Core loop of nom's `many0!`/`fold_many0!`: stop with success on `Error` or
on empty input, propagate `Incomplete` and panics, and (like nom's
`ErrorKind::Many0` guard) fail if an iteration makes no progress.  Progress is
measured by input length, which for the suffix-returning parsers of this
development coincides with nom's pointer-equality check.  The structural
`fuel` (always instantiated with more than the input length) only bounds the
model's recursion; since every iteration consumes input, the `fatal`
exhaustion case is unreachable. -/
def pmany0Aux {α β : Type} (p : Parser α) (step : β → α → β) :
    Nat → List Char → β → IResult β
  | 0, _, _ => .fatal
  | f+1, inp, acc =>
    if inp.isEmpty then .done inp acc
    else
      match p inp with
      | .error => .done inp acc
      | .incomplete => .incomplete
      | .fatal => .fatal
      | .done ninp a =>
        if ninp.length < inp.length then
          pmany0Aux p step f ninp (step acc a)
        else .error

/-- nom's `many0!`. -/
def pmany0 {α : Type} (p : Parser α) : Parser (List α) := fun inp =>
  match pmany0Aux p (fun acc a => a :: acc) (inp.length + 1) inp [] with
  | .done rest acc => .done rest acc.reverse
  | .error => .error
  | .incomplete => .incomplete
  | .fatal => .fatal

/-- nom's `fold_many0!`. -/
def pfoldMany0 {α β : Type} (p : Parser α) (init : β) (step : β → α → β) :
    Parser β := fun inp =>
  pmany0Aux p step (inp.length + 1) inp init

/-- Iteration of nom's `separated_list!` once a first element has been read:
separator then element; a failure of either rolls the input back to before
the separator.  Fuel as in `pmany0Aux`. -/
def psepAux {α β : Type} (sep : Parser β) (p : Parser α) :
    Nat → List Char → List α → IResult (List α)
  | 0, _, _ => .fatal
  | f+1, inp, acc =>
    match sep inp with
    | .error => .done inp acc
    | .incomplete => .incomplete
    | .fatal => .fatal
    | .done inp2 _ =>
      match p inp2 with
      | .error => .done inp acc
      | .incomplete => .incomplete
      | .fatal => .fatal
      | .done inp3 a =>
        if inp3.length < inp.length then
          psepAux sep p f inp3 (a :: acc)
        else .done inp acc

/-- nom's `separated_list!`. -/
def psepList {α β : Type} (sep : Parser β) (p : Parser α) : Parser (List α) := fun inp =>
  match p inp with
  | .error => .done inp []
  | .incomplete => .incomplete
  | .fatal => .fatal
  | .done inp1 a =>
    match psepAux sep p (inp1.length + 1) inp1 [a] with
    | .done rest acc => .done rest acc.reverse
    | .error => .error
    | .incomplete => .incomplete
    | .fatal => .fatal

/-- A parser stuck in a Rust `panic!` (or out of model fuel). -/
def fatalP {α : Type} : Parser α := fun _ => .fatal

/- ### Quote and escape characters, defined numerically for readability -/

/-- The double-quote character. -/
def dquo : Char := Char.ofNat 34

/-- The single-quote character. -/
def squo : Char := Char.ofNat 39

/-- The backslash character. -/
def bslash : Char := Char.ofNat 92

/- ### Data model (types from src/src/lib.rs) -/

/-- `type Alignment = u64`. -/
abbrev Alignment : Type := Nat

/-- `type AttributeGroup = u64`. -/
abbrev AttributeGroup : Type := Nat

/-- `AddressSpace` (declared in the crate's `types` module, not under src/;
modelled as a number per the spec's `addrspace(N)`). -/
abbrev AddressSpace : Type := Nat

/-- Modelled from the spec: the `Type` sum of §3 of the specification (the
crate's `types` module is not under src/).  `Int(bitwidth)`,
`Pointer(pointee, addr-space)`, `Array(length, element)`,
`Vector(length, element)`, `Struct{packed, fields[]}`, `NamedRef(name)`,
`Function{return, params[], var_args}`, `Void`, `Metadata`, `Opaque`
(spelled `Opq`), `Label`. -/
inductive Ty : Type where
  | Int (bitwidth : Nat)
  | Pointer (pointee : Ty) (addr_space : Option AddressSpace)
  | Array (length : Nat) (element : Ty)
  | Vector (length : Nat) (element : Ty)
  | Struct (packed : Bool) (fields : List Ty)
  | NamedRef (name : String)
  | Function (ret : Ty) (params : List Ty) (var_args : Bool)
  | Void
  | Metadata
  | Opq
  | Label

inductive Linkage : Type where
  | Private | Internal | AvailableExternally | LinkOnce | Weak | Common
  | Appending | ExternWeak | LinkOnceODR | WeakODR | External

inductive Visibility : Type where
  | Default | Hidden | Protected

inductive DLLStorageClass : Type where
  | Default | DLLImport | DLLExport

inductive ThreadLocal : Type where
  | ThreadLocal | LocalDynamic | InitialExec | LocalExec

inductive UnnamedAddr : Type where
  | UnnamedAddr | LocalUnnamedAddr

inductive GlobalType : Type where
  | Global | Constant

/-- `Typed<T>`. -/
structure Typed (T : Type) : Type where
  tp : Ty
  val : T

/-- `GEP<T>` (named `GEPData` because `GEP` is also a constructor name). -/
structure GEPData (T : Type) : Type where
  ptr : Typed T
  inbounds : Bool
  indices : List (Typed T × Bool)

/-- `Constant`; `Int` carries a `BigInt`, modelled by `Int` (arbitrary
precision, signed). -/
inductive Constant : Type where
  | Global (name : String)
  | Int (value : Int)
  | Array (elements : List Constant)
  | GEP (g : GEPData Constant)
  | NullPtr

structure Attribute : Type where
  name : String
  quoted : Bool
  value : Option String

structure ParAttrs : Type where
  zeroext : Bool
  signext : Bool
  inreg : Bool
  byval : Bool
  inalloca : Bool
  sret : Bool
  align : Option Alignment
  noalias : Bool
  nocapture : Bool
  nest : Bool
  returned : Bool
  nonnull : Bool
  dereferenceable : Option Nat
  dereferenceable_or_null : Option Nat
  swiftself : Bool
  swifterror : Bool

/-- `ParAttrs::new()`. -/
def ParAttrs.new : ParAttrs :=
  { zeroext := false, signext := false, inreg := false, byval := false,
    inalloca := false, sret := false, align := none, noalias := false,
    nocapture := false, nest := false, returned := false, nonnull := false,
    dereferenceable := none, dereferenceable_or_null := none,
    swiftself := false, swifterror := false }

inductive CmpOp : Type where
  | Eq | Ne | UGt | UGe | ULt | ULe | SGt | SGe | SLt | SLe

inductive CallingConv : Type where
  | C | Fast | Cold | WebKitJS | AnyReg | PreserveMost | PreserveAll
  | CxxFastTLS | Swift | Numbered (n : Nat)

inductive BinOp : Type where
  | Add (nuw nsw : Bool)
  | Sub (nuw nsw : Bool)
  | Mul (nuw nsw : Bool)
  | And | Or | XOr | AShr | LShr | Shl
  | SDiv (exact : Bool)

inductive CastInst : Type where
  | Trunc | ZExt | SExt | Bitcast | IntToPtr | PtrToInt

mutual
/-- `Value`. -/
inductive Value : Type where
  | Constant (c : Constant)
  | Local (name : String)
  | Argument (index : Nat)
  | Metadata (m : Metadata)

/-- `Metadata`.  `Value(Box<Typed<Value>>)` is flattened into the two fields
of the `Typed` pair; `Bytes(Vec<u8>)` carries its bytes as naturals. -/
inductive Metadata : Type where
  | Null
  | Ref (n : Nat)
  | MValue (tp : Ty) (vl : Value)
  | Struct (children : List Metadata)
  | Bytes (bytes : List Nat)
  | Location (line column : Nat) (scope : Metadata)
end

inductive Terminator : Type where
  | Br (label : String)
  | BrC (cond : Value) (ltrue lfalse : String)
  | Ret (v : Option (Typed Value))
  | Switch (tp : Ty) (v : Value) (default : String) (cases : List (Constant × String))
  | Unreachable

inductive UnaryInst : Type where
  | Cast (target : Ty) (op : CastInst)
  | Load (volatile : Bool) (align : Option Alignment)

inductive InstructionC : Type where
  | Alloca (name : String) (tp : Ty) (num : Option (Typed Value)) (align : Option Alignment)
  | Call (res : Option String) (cc : CallingConv) (rtp : Option (Ty × ParAttrs))
      (fn : Value) (args : List (Typed Value)) (attrs : List AttributeGroup)
  | ICmp (name : String) (op : CmpOp) (tp : Ty) (lhs rhs : Value)
  | Unary (name : String) (arg : Typed Value) (op : UnaryInst)
  | GEP (name : String) (g : GEPData Value)
  | Store (volatile : Bool) (obj ptr : Typed Value) (align : Option Alignment)
  | Select (name : String) (cond : Value) (tp : Ty) (lhs rhs : Value)
  | Phi (name : String) (tp : Ty) (targets : List (Value × String))
  | Bin (name : String) (op : BinOp) (tp : Ty) (lhs rhs : Value)
  | Term (t : Terminator)

/-- `Instruction`.  The `HashMap<String,u64>` metadata map is modelled as an
association list whose `insert` replaces an existing binding. -/
structure Instruction : Type where
  content : InstructionC
  metadata : List (String × Nat)

structure BasicBlock : Type where
  name : String
  instrs : List Instruction

structure Function : Type where
  name : String
  linkage : Option Linkage
  visibility : Visibility
  dll_storage_class : DLLStorageClass
  cconv : CallingConv
  return_type : Option (ParAttrs × Ty)
  arguments : List (Option String × Ty)
  var_args : Bool
  attribute_groups : List AttributeGroup
  body : Option (List BasicBlock)

/-- `Function::is_defined`. -/
def Function.isDefined (f : Function) : Bool :=
  f.body.isSome

structure GlobalVariable : Type where
  linkage : Option Linkage
  visibility : Visibility
  dll_storage_class : DLLStorageClass
  thread_local : Option ThreadLocal
  unnamed_addr : Option UnnamedAddr
  addr_space : Option AddressSpace
  externally_initialized : Bool
  global_type : GlobalType
  types : Ty
  initialization : Option Constant
  sect : Option String
  alignment : Option Alignment

/-- Modelled from the spec: the crate's `datalayout` module is not under
src/.  None of the claims under verification inspect the layout's fields, so
the `DataLayout` record only retains the raw specification string; the empty
layout of `DataLayout::new()` is `none`. -/
structure DataLayout : Type where
  raw : Option String

/-- `DataLayout::new()` — the empty layout. -/
def DataLayout.new : DataLayout := { raw := none }

/-- `Module`.  Every `HashMap` becomes an association list (lookup takes the
first binding; insert replaces in place). -/
structure Module : Type where
  id : Option String
  datalayout : DataLayout
  triple : Option String
  functions : List (String × Function)
  types : List (String × Ty)
  globals : List (String × GlobalVariable)
  attr_groups : List (Nat × List Attribute)
  named_md : List (String × Metadata)
  md : List (Nat × Metadata)

/- ### Association-list model of `HashMap` -/

/-- `HashMap` lookup. -/
def alLookup {κ ν : Type} [DecidableEq κ] (k : κ) : List (κ × ν) → Option ν
  | [] => none
  | (k', v) :: rest => if k' = k then some v else alLookup k rest

/-- `HashMap::insert`: replace the binding in place, or append. -/
def alInsert {κ ν : Type} [DecidableEq κ] (k : κ) (v : ν) : List (κ × ν) → List (κ × ν)
  | [] => [(k, v)]
  | (k', v') :: rest => if k' = k then (k, v) :: rest else (k', v') :: alInsert k v rest

/- ### Lexical primitives (the crate's `helper` module, not under src/) -/

/-- Modelled from the spec: horizontal whitespace is space or tab (§4.1). -/
def isHSpace (c : Char) : Bool :=
  c = ' ' ∨ c = '\t'

/-- Any whitespace character (space, tab, carriage return, newline). -/
def isWsChar (c : Char) : Bool :=
  c = ' ' ∨ c = '\t' ∨ c = '\r' ∨ c = '\n'

/-- Modelled from the spec: `llvm_space` matches zero or more horizontal
whitespace characters (§4.1); it always succeeds. -/
def llvmSpaceP : Parser Unit := fun inp =>
  .done (inp.dropWhile isHSpace) ()

/-- Modelled from the spec: `llvm_nl` matches any run of whitespace that
contains at least one newline (§4.1); without a newline it fails. -/
def llvmNlP : Parser Unit := fun inp =>
  let run := inp.takeWhile isWsChar
  if run.contains '\n' then .done (inp.dropWhile isWsChar) () else .error

/-- Modelled from the spec: `llvm_ws`, any run of whitespace — used by the
`switch` production between the case brackets; zero or more whitespace
characters. -/
def llvmWsP : Parser Unit := fun inp =>
  .done (inp.dropWhile isWsChar) ()

/-- Modelled from the spec: identifier characters are alphanumerics plus
`_`, `.`, `$` (§4.1). -/
def isIdentChar (c : Char) : Bool :=
  c.isAlphanum ∨ c = '_' ∨ c = '.' ∨ c = '$'

/-- Run of one or more characters satisfying `good`; consuming up to the end
of the input succeeds (complete-input behaviour, as the driver always holds
the whole buffer). -/
def pcharRun (good : Char → Bool) : Parser (List Char) := fun inp =>
  let taken := inp.takeWhile good
  if taken.isEmpty then .error else .done (inp.drop taken.length) taken

/-- Modelled from the spec: `local_name` is `%` followed by an identifier
token; the leading sigil is stripped (§4.1, §3 invariants). -/
def localName : Parser String :=
  ppreceded (pchar '%') (pmap (fun cs => String.mk cs) (pcharRun isIdentChar))

/-- Modelled from the spec: `global_name` is `@` followed by an identifier
token, the sigil stripped (§4.1). -/
def globalName : Parser String :=
  ppreceded (pchar '@') (pmap (fun cs => String.mk cs) (pcharRun isIdentChar))

/-- Numeric value of a run of decimal digits. -/
def digitsToNat (cs : List Char) : Nat :=
  cs.foldl (fun acc c => 10 * acc + (c.toNat - 48)) 0

/-- nom's `digit`: a run of one or more decimal digits. -/
def digitP : Parser (List Char) :=
  pcharRun Char.isDigit

/-- nom's `alpha`: a run of one or more letters. -/
def alphaP : Parser (List Char) :=
  pcharRun Char.isAlpha

/-- Modelled from the spec: `parse_u64` reads a decimal integer literal
(§4.1); the value is kept as a natural number. -/
def parseU64 : Parser Nat :=
  pmap digitsToNat digitP

/-- Modelled from the spec: `address_space` reads `addrspace(N)` (§6). -/
def addressSpaceP : Parser AddressSpace :=
  ppreceded (ptag "addrspace")
    (ppreceded (pchar '(')
      (pterminated parseU64 (pchar ')')))

/- ### Type grammar (spec-modelled, §4.2; the crate's `types` module is not
under src/) -/

/-- `iN`. -/
def tyIntP : Parser Ty :=
  ppreceded (pchar 'i') (pmap (fun ds => Ty.Int (digitsToNat ds)) digitP)

/-- Separator `,` with surrounding horizontal space. -/
def commaSpaceP : Parser Unit :=
  pdelimited llvmSpaceP (pchar ',') llvmSpaceP

/-- Modelled from the spec: postfix part of the type grammar — repeated `*`
(optionally `addrspace(N)*`) building `Pointer`, and `( params )` building a
function type (§4.2).  Branches are completed so that a type ending the
input is accepted. -/
def typesSuffixF (elem : Parser Ty) : Nat → Ty → Parser Ty
  | 0, _ => fatalP
  | f+1, t =>
    palt
      (pcomplete
        (pbind (pchar '*') (fun _ => typesSuffixF elem f (Ty.Pointer t none))))
      (palt
        (pcomplete
          (pbind
            (ppreceded llvmSpaceP
              (pterminated addressSpaceP (ppreceded llvmSpaceP (pchar '*'))))
            (fun n => typesSuffixF elem f (Ty.Pointer t (some n)))))
        (palt
          (pcomplete
            (pbind
              (ppreceded llvmSpaceP
                (ppreceded (pchar '(')
                  (pbind (ppreceded llvmWsP (psepList commaSpaceP elem))
                    (fun ps =>
                      pbind
                        (popt (pcomplete
                          (ppreceded llvmWsP
                            (ppreceded (popt (pterminated (pchar ',') llvmSpaceP))
                              (ptag "...")))))
                        (fun va =>
                          ppreceded llvmWsP
                            (ppreceded (pchar ')')
                              (ppure (Ty.Function t ps va.isSome))))))))
              (fun ft => typesSuffixF elem f ft)))
          (ppure t)))

/-- Modelled from the spec: the base alternatives of the type grammar
(§4.2): `iN`, `[N x T]`, `<N x T>`, `{…}` and `<{…}>`, `%name`, and the
keyword types. -/
def typesBaseF (elem : Parser Ty) : Parser Ty :=
  paltcl
    [ tyIntP,
      ppreceded (pchar '[')
        (ppreceded llvmWsP
          (pbind parseU64 (fun n =>
            ppreceded llvmSpaceP
              (ppreceded (pchar 'x')
                (ppreceded llvmSpaceP
                  (pbind elem (fun t =>
                    ppreceded llvmWsP
                      (ppreceded (pchar ']') (ppure (Ty.Array n t)))))))))),
      ppreceded (pchar '<')
        (palt
          (ppreceded (pchar '{')
            (pbind (ppreceded llvmWsP (psepList commaSpaceP elem)) (fun fs =>
              ppreceded llvmWsP
                (ppreceded (pchar '}')
                  (ppreceded (pchar '>') (ppure (Ty.Struct true fs)))))))
          (ppreceded llvmWsP
            (pbind parseU64 (fun n =>
              ppreceded llvmSpaceP
                (ppreceded (pchar 'x')
                  (ppreceded llvmSpaceP
                    (pbind elem (fun t =>
                      ppreceded llvmWsP
                        (ppreceded (pchar '>') (ppure (Ty.Vector n t)))))))))))
      ,
      ppreceded (pchar '{')
        (pbind (ppreceded llvmWsP (psepList commaSpaceP elem)) (fun fs =>
          ppreceded llvmWsP
            (ppreceded (pchar '}') (ppure (Ty.Struct false fs))))),
      pmap Ty.NamedRef localName,
      pmap (fun _ => Ty.Void) (ptag "void"),
      pmap (fun _ => Ty.Metadata) (ptag "metadata"),
      pmap (fun _ => Ty.Label) (ptag "label"),
      pmap (fun _ => Ty.Opq) (ptag "opaque") ]

/-- Modelled from the spec: the recursive type parser; `fuel` bounds the
model's recursion (exhaustion yields `fatal` and is unreachable for the
inputs considered, as every recursive entry first consumes input). -/
def typesF : Nat → Parser Ty
  | 0 => fatalP
  | f+1 => pbind (typesBaseF (typesF f)) (fun t => typesSuffixF (typesF f) (f+1) t)

/-- Modelled from the spec: the `types` entry point.  It consumes trailing
horizontal whitespace: the `gep` production of the source (src/src/lib.rs
line 848) writes `tp: types >> v: call!(parse)` with no space in between, so
the missing `types` parser must already eat the separating space. -/
def typesP : Parser Ty := fun inp =>
  pterminated (typesF (inp.length + 1)) llvmSpaceP inp

/- ### Constants (src/src/lib.rs `constant`, `constant_char`, `gep`) -/

/-- Value of a hexadecimal digit. -/
def hexDigitVal (c : Char) : Option Nat :=
  if c.isDigit then some (c.toNat - 48)
  else if 'a' ≤ c ∧ c ≤ 'f' then some (c.toNat - 87)
  else if 'A' ≤ c ∧ c ≤ 'F' then some (c.toNat - 55)
  else none

/-- Value of a non-empty all-hexadecimal digit run. -/
def parseHexNat (cs : List Char) : Option Nat :=
  if cs.isEmpty then none
  else
    cs.foldl
      (fun acc c =>
        match acc, hexDigitVal c with
        | some a, some d => some (16 * a + d)
        | _, _ => none)
      (some 0)

/-- `BigInt::parse_bytes(s, 16)`: an optional leading sign followed by one
or more hexadecimal digits.  Note that the sign is accepted — `num-bigint`
parses signed numerals even with radix 16. -/
def parseBytesHex (cs : List Char) : Option Int :=
  match cs with
  | '-' :: rest => (parseHexNat rest).map (fun n => -(n : Int))
  | '+' :: rest => (parseHexNat rest).map (fun n => (n : Int))
  | _ => (parseHexNat cs).map (fun n => (n : Int))

/-- `constant_char`: a `\HH` escape (two characters fed to
`BigInt::parse_bytes(_, 16)`), or any single byte other than `"`. -/
def constantCharP : Parser Int :=
  palt
    (pmapOpt parseBytesHex (ppreceded (pchar bslash) (ptake 2)))
    (pmapOpt
      (fun l =>
        match l with
        | [c] => if c = dquo then none else some (Int.ofNat c.toNat)
        | _ => none)
      (ptake 1))

/-- `gep`: parameterized over the leaf parser and over whether the grammar
is parenthesized (constant form) or not (instruction form). -/
def gepP {T : Type} (parseVal : Parser T) (paren : Bool) : Parser (GEPData T) :=
  pbind (ptag "getelementptr") (fun _ =>
  pbind llvmSpaceP (fun _ =>
  pbind (pmap Option.isSome (popt (pterminated (ptag "inbounds") llvmSpaceP))) (fun inb =>
  pbind (pcond paren (pterminated (pchar '(') llvmSpaceP)) (fun _ =>
  pbind typesP (fun tp =>
  pbind llvmSpaceP (fun _ =>
  pbind parseVal (fun ptr =>
  pbind llvmSpaceP (fun _ =>
  pbind
    (pmany0
      (pbind (pchar ',') (fun _ =>
       pbind llvmSpaceP (fun _ =>
       pbind (pmap Option.isSome (popt (pterminated (ptag "inrange") llvmSpaceP))) (fun ir =>
       pbind typesP (fun itp =>
       pbind parseVal (fun v =>
       pbind llvmSpaceP (fun _ =>
       ppure ((Typed.mk itp v, ir))))))))))
    (fun idx =>
  pbind (pcond paren (pchar ')')) (fun _ =>
  ppure (GEPData.mk (Typed.mk tp ptr) inb idx)))))))))))

/-- `constant`, with fuel for the recursion through constant `getelementptr`
expressions. -/
def constantF : Nat → Parser Constant
  | 0 => fatalP
  | f+1 =>
    paltcl
      [ pmap (fun _ => Constant.NullPtr) (ptag "null"),
        pmap (fun _ => Constant.Int 0) (ptag "false"),
        pmap (fun _ => Constant.Int 1) (ptag "true"),
        pmap Constant.Global globalName,
        ppreceded (pchar 'c')
          (ppreceded (pchar dquo)
            (pbind
              (pfoldMany0 (pmap Constant.Int constantCharP) []
                (fun acc el => el :: acc))
              (fun revEls =>
                ppreceded (pchar dquo) (ppure (Constant.Array revEls.reverse))))),
        pmap (fun ds => Constant.Int ((digitsToNat ds : Nat) : Int)) digitP,
        pmap (fun ds => Constant.Int (-((digitsToNat ds : Nat) : Int)))
          (ppreceded (pchar '-') digitP),
        pmap Constant.GEP (gepP (constantF f) true) ]

/-- The `constant` entry point. -/
def constantP : Parser Constant := fun inp =>
  constantF (inp.length + 1) inp

/- ### Values (src/src/lib.rs `argument`, `value`) -/

/-- `argument`: resolve a `%name` against the enclosing function's argument
list: `args.iter().position(..)` is `List.findIdx?`. -/
def argumentP (args : List (Option String × Ty)) : Parser Nat :=
  pmapOpt
    (fun name =>
      args.findIdx?
        (fun arg =>
          match arg.1 with
          | some oname => oname = name
          | none => false))
    localName

/-- `value`. -/
def valueP (args : List (Option String × Ty)) : Parser Value :=
  paltcl
    [ pmap Value.Argument (argumentP args),
      pmap Value.Local localName,
      pmap Value.Constant constantP ]

/- ### Metadata (src/src/lib.rs `metadata`, `typed_value`) -/

/-- Decoder for a `\NN` escape of a metadata byte string: the two characters
go through `str::from_utf8` and `u8::from_str`, i.e. a decimal `u8` numeral
(optionally with a leading `+`). -/
def parseDecU8 (cs : List Char) : Option Nat :=
  let digits := match cs with
    | '+' :: rest => rest
    | _ => cs
  if digits.isEmpty ∨ ¬ digits.all Char.isDigit then none
  else
    let n := digitsToNat digits
    if n ≤ 255 then some n else none

/-- One byte of a metadata byte string: a `\NN` decimal escape or any byte
other than `"`. -/
def mdByteP : Parser Nat :=
  palt
    (pmapOpt parseDecU8 (ppreceded (pchar bslash) (ptake 2)))
    (pmapOpt
      (fun l =>
        match l with
        | [c] => if c = dquo then none else some c.toNat
        | _ => none)
      (ptake 1))

mutual
/-- `metadata`. -/
def metadataF : Nat → List (Option String × Ty) → Parser Metadata
  | 0, _ => fatalP
  | f+1, args =>
    paltcl
      [ pmap (fun _ => Metadata.Null) (ptag "null"),
        ppreceded (pchar '!')
          (paltl
            [ ppreceded (pchar '{')
                (ppreceded llvmSpaceP
                  (pbind (psepList commaSpaceP (metadataF f args)) (fun els =>
                    ppreceded llvmSpaceP
                      (ppreceded (pchar '}') (ppure (Metadata.Struct els)))))),
              pmap Metadata.Ref parseU64,
              pmap Metadata.Bytes
                (pdelimited (pchar dquo) (pmany0 mdByteP) (pchar dquo)),
              pbind (ptag "MDLocation") (fun _ =>
              pbind llvmSpaceP (fun _ =>
              pbind (pchar '(') (fun _ =>
              pbind llvmSpaceP (fun _ =>
              pbind (ptag "line:") (fun _ =>
              pbind llvmSpaceP (fun _ =>
              pbind parseU64 (fun l =>
              pbind llvmSpaceP (fun _ =>
              pbind (pchar ',') (fun _ =>
              pbind llvmSpaceP (fun _ =>
              pbind (ptag "column:") (fun _ =>
              pbind llvmSpaceP (fun _ =>
              pbind parseU64 (fun c =>
              pbind llvmSpaceP (fun _ =>
              pbind (pchar ',') (fun _ =>
              pbind llvmSpaceP (fun _ =>
              pbind (ptag "scope:") (fun _ =>
              pbind llvmSpaceP (fun _ =>
              pbind (metadataF f args) (fun sc =>
              pbind llvmSpaceP (fun _ =>
              pbind (pchar ')') (fun _ =>
              ppure (Metadata.Location l c sc)))))))))))))))))))))) ]),
        pmap (fun tv => Metadata.MValue tv.tp tv.val) (typedValueF f args) ]

/-- `typed_value`. -/
def typedValueF : Nat → List (Option String × Ty) → Parser (Typed Value)
  | 0, _ => fatalP
  | f+1, args =>
    paltcl
      [ pbind (ptag "metadata") (fun _ =>
          pbind llvmSpaceP (fun _ =>
            pmap (fun r => Typed.mk Ty.Metadata (Value.Metadata r))
              (metadataF f args))),
        pbind typesP (fun tp =>
          ppreceded llvmSpaceP (pmap (fun v => Typed.mk tp v) (valueP args))) ]
end

/-- The `metadata` entry point. -/
def metadataP (args : List (Option String × Ty)) : Parser Metadata := fun inp =>
  metadataF (inp.length + 1) args inp

/-- The `typed_value` entry point. -/
def typedValueP (args : List (Option String × Ty)) : Parser (Typed Value) := fun inp =>
  typedValueF (inp.length + 1) args inp

/- ### Keyword tables (src/src/lib.rs `cmp_op`, `linkage`, …) -/

/-- Whitespace skip of nom's `ws!` wrapper (space, tab, CR, LF). -/
def wsSkipP : Parser Unit := fun inp =>
  .done (inp.dropWhile isWsChar) ()

/-- `cmp_op`. -/
def cmpOpP : Parser CmpOp :=
  paltl
    [ pmap (fun _ => CmpOp.Eq) (ptag "eq"),
      pmap (fun _ => CmpOp.Ne) (ptag "ne"),
      pmap (fun _ => CmpOp.UGt) (ptag "ugt"),
      pmap (fun _ => CmpOp.UGe) (ptag "uge"),
      pmap (fun _ => CmpOp.ULt) (ptag "ult"),
      pmap (fun _ => CmpOp.ULe) (ptag "ule"),
      pmap (fun _ => CmpOp.SGt) (ptag "sgt"),
      pmap (fun _ => CmpOp.SGe) (ptag "sge"),
      pmap (fun _ => CmpOp.SLt) (ptag "slt"),
      pmap (fun _ => CmpOp.SLe) (ptag "sle") ]

/-- `linkage`. -/
def linkageP : Parser Linkage :=
  paltl
    [ pmap (fun _ => Linkage.Private) (ptag "private"),
      pmap (fun _ => Linkage.Internal) (ptag "internal"),
      pmap (fun _ => Linkage.AvailableExternally) (ptag "available_externally"),
      pmap (fun _ => Linkage.LinkOnce) (ptag "linkonce"),
      pmap (fun _ => Linkage.Weak) (ptag "weak"),
      pmap (fun _ => Linkage.Common) (ptag "common"),
      pmap (fun _ => Linkage.Appending) (ptag "appending"),
      pmap (fun _ => Linkage.ExternWeak) (ptag "extern_weak"),
      pmap (fun _ => Linkage.LinkOnceODR) (ptag "linkonce_odr"),
      pmap (fun _ => Linkage.WeakODR) (ptag "weak_odr"),
      pmap (fun _ => Linkage.External) (ptag "external") ]

/-- `visibility`. -/
def visibilityP : Parser Visibility :=
  paltl
    [ pmap (fun _ => Visibility.Default) (ptag "default"),
      pmap (fun _ => Visibility.Hidden) (ptag "hidden"),
      pmap (fun _ => Visibility.Protected) (ptag "protected") ]

/-- `dll_storage_class`. -/
def dllStorageClassP : Parser DLLStorageClass :=
  paltl
    [ pmap (fun _ => DLLStorageClass.Default) (ptag "default"),
      pmap (fun _ => DLLStorageClass.DLLImport) (ptag "dllimport"),
      pmap (fun _ => DLLStorageClass.DLLExport) (ptag "dllexport") ]

/-- `thread_local`. -/
def threadLocalP : Parser ThreadLocal :=
  paltl
    [ pmap (fun _ => ThreadLocal.ThreadLocal)
        (pbind wsSkipP (fun _ =>
         pbind (ptag "thread") (fun _ =>
         pbind wsSkipP (fun _ =>
         pbind (ptag "local") (fun _ => wsSkipP))))),
      pmap (fun _ => ThreadLocal.LocalDynamic) (ptag "localdynamic"),
      pmap (fun _ => ThreadLocal.InitialExec) (ptag "initialexec"),
      pmap (fun _ => ThreadLocal.LocalExec) (ptag "localexec") ]

/-- `unnamed_addr`. -/
def unnamedAddrP : Parser UnnamedAddr :=
  paltl
    [ pmap (fun _ => UnnamedAddr.UnnamedAddr) (ptag "unnamed_addr"),
      pmap (fun _ => UnnamedAddr.LocalUnnamedAddr) (ptag "local_unnamed_addr") ]

/-- `externally_initialized`. -/
def externallyInitializedP : Parser Unit :=
  pmap (fun _ => ()) (ptag "externally_initialized")

/-- `global_type`. -/
def globalTypeP : Parser GlobalType :=
  paltl
    [ pmap (fun _ => GlobalType.Global) (ptag "global"),
      pmap (fun _ => GlobalType.Constant) (ptag "constant") ]

/-- `alignment`: an optional, completed `, align N` suffix. -/
def alignmentP : Parser (Option Alignment) :=
  popt (pcomplete
    (pbind (pchar ',') (fun _ =>
     pbind llvmSpaceP (fun _ =>
     pbind (ptag "align") (fun _ =>
     pbind llvmSpaceP (fun _ =>
     pbind parseU64 (fun n =>
     pbind llvmSpaceP (fun _ =>
     ppure n))))))))

/-- `calling_conv`. -/
def callingConvP : Parser CallingConv :=
  paltl
    [ pmap (fun _ => CallingConv.C) (ptag "ccc"),
      pmap (fun _ => CallingConv.Fast) (ptag "fastcc"),
      pmap (fun _ => CallingConv.Cold) (ptag "coldcc"),
      pmap (fun _ => CallingConv.WebKitJS) (ptag "webkit_jscc"),
      pmap (fun _ => CallingConv.AnyReg) (ptag "anyregcc"),
      pmap (fun _ => CallingConv.PreserveMost) (ptag "preserve_mostcc"),
      pmap (fun _ => CallingConv.PreserveAll) (ptag "preserve_allcc"),
      pmap (fun _ => CallingConv.CxxFastTLS) (ptag "cxx_fast_tlscc"),
      pmap (fun _ => CallingConv.Swift) (ptag "swiftcc"),
      pbind (ptag "cc") (fun _ =>
        pbind llvmSpaceP (fun _ =>
          pmap CallingConv.Numbered parseU64)) ]

/- ### Parameter attributes (src/src/lib.rs `par_attr`, `par_attrs`) -/

/-- `par_attr`: one recognized parameter-attribute keyword, setting the
matching flag of the accumulator.  Only `zeroext`, `signext`, `inreg`,
`byval` and `noalias` are recognized by the source. -/
def parAttr (attrs : ParAttrs) : Parser ParAttrs :=
  paltl
    [ pmap (fun _ => { attrs with zeroext := true }) (ptag "zeroext"),
      pmap (fun _ => { attrs with signext := true }) (ptag "signext"),
      pmap (fun _ => { attrs with inreg := true }) (ptag "inreg"),
      pmap (fun _ => { attrs with byval := true }) (ptag "byval"),
      pmap (fun _ => { attrs with noalias := true }) (ptag "noalias") ]

/-- The `while input.len() > 0` loop of `par_attrs`.  Falling out of the
loop (input exhausted) yields `Incomplete(Needed::Unknown)`.  The fuel and
the progress guard replace non-termination of the Rust loop with `fatal`;
both are unreachable, as a successful `par_attr` always consumes its
keyword and the fuel exceeds the input length. -/
def parAttrsAux : Nat → List Char → ParAttrs → IResult ParAttrs
  | 0, _, _ => .fatal
  | f+1, inp, attrs =>
    if inp.isEmpty then .incomplete
    else
      match parAttr attrs inp with
      | .done ninp a2 =>
        match llvmSpaceP ninp with
        | .done ninp2 _ =>
          if ninp2.length < inp.length then parAttrsAux f ninp2 a2
          else .fatal
        | .error => .error
        | .incomplete => .incomplete
        | .fatal => .fatal
      | .error => .done inp attrs
      | .incomplete => .incomplete
      | .fatal => .fatal

/-- `par_attrs`. -/
def parAttrs : Parser ParAttrs := fun inp =>
  parAttrsAux (inp.length + 1) inp ParAttrs.new

/- ### Attributes and attribute groups -/

/-- `attribute` (named `attributeP`: `attribute` is a Lean keyword). -/
def attributeP : Parser Attribute :=
  pbind
    (paltl
      [ pmap (fun cs => (String.mk cs, false)) alphaP,
        pmap (fun cs => (String.mk cs, true))
          (pdelimited (pchar dquo) (pisNotL [dquo]) (pchar dquo)) ])
    (fun name =>
      pbind
        (popt
          (pbind (pchar '=') (fun _ =>
            pmap (fun cs => String.mk cs)
              (pdelimited (pchar dquo) (pisNotL [dquo]) (pchar dquo)))))
        (fun val =>
          ppure (Attribute.mk name.1 name.2 val)))

/-- `attribute_group`. -/
def attributeGroupP : Parser (Nat × List Attribute) :=
  pbind (ptag "attributes") (fun _ =>
  pbind llvmSpaceP (fun _ =>
  pbind (pchar '#') (fun _ =>
  pbind parseU64 (fun n =>
  pbind llvmSpaceP (fun _ =>
  pbind (pchar '=') (fun _ =>
  pbind llvmSpaceP (fun _ =>
  pbind (pchar '{') (fun _ =>
  pbind llvmSpaceP (fun _ =>
  pbind (pmany0 (pterminated attributeP llvmSpaceP)) (fun attrs =>
  pbind (pchar '}') (fun _ =>
  ppure (n, attrs))))))))))))

/- ### Named and numbered metadata elements -/

/-- `named_metadata`. -/
def namedMetadataP (args : List (Option String × Ty)) : Parser (String × Metadata) :=
  pbind (pchar '!') (fun _ =>
  pbind (pmap (fun cs => String.mk cs) (pisNotL [' ', '=', '!', ',', '\n'])) (fun name =>
  pbind llvmSpaceP (fun _ =>
  pbind (pchar '=') (fun _ =>
  pbind llvmSpaceP (fun _ =>
  pbind (metadataP args) (fun def_ =>
  ppure (name, def_)))))))

/-- `num_metadata`. -/
def numMetadataP (args : List (Option String × Ty)) : Parser (Nat × Metadata) :=
  pbind (pchar '!') (fun _ =>
  pbind parseU64 (fun name =>
  pbind llvmSpaceP (fun _ =>
  pbind (pchar '=') (fun _ =>
  pbind llvmSpaceP (fun _ =>
  pbind (metadataP args) (fun def_ =>
  ppure (name, def_)))))))

/- ### Globals (src/src/lib.rs `global_variable`, `Constant::zero_init`) -/

/-- `Constant::zero_init`: `none` models the `panic!` for types without a
defined zero. -/
def zeroInit : Ty → Option Constant
  | .Int _ => some (.Int 0)
  | .Pointer _ _ => some .NullPtr
  | .Array sz stp => (zeroInit stp).map (fun c => .Array (List.replicate sz c))
  | _ => none

/-- `global_variable`. -/
def globalVariableP : Parser GlobalVariable :=
  pbind (popt (pterminated linkageP llvmSpaceP)) (fun l =>
  pbind (palt (pterminated visibilityP llvmSpaceP) (ppure Visibility.Default)) (fun v =>
  pbind (palt (pterminated dllStorageClassP llvmSpaceP) (ppure DLLStorageClass.Default)) (fun dll =>
  pbind (popt (pterminated threadLocalP llvmSpaceP)) (fun loc =>
  pbind (popt (pterminated unnamedAddrP llvmSpaceP)) (fun ua =>
  pbind (popt (pterminated addressSpaceP llvmSpaceP)) (fun addrsp =>
  pbind (pmap Option.isSome (popt (pterminated externallyInitializedP llvmSpaceP))) (fun ext =>
  pbind globalTypeP (fun gtp =>
  pbind llvmSpaceP (fun _ =>
  pbind typesP (fun tp =>
  pbind llvmSpaceP (fun _ =>
  pbind
    (popt (pterminated
      (palt
        (pbind (ptag "zeroinitializer") (fun _ =>
          match zeroInit tp with
          | some c => ppure c
          | none => fatalP))
        constantP)
      llvmSpaceP))
    (fun init =>
  pbind
    (popt
      (pbind (pchar ',') (fun _ =>
       pbind llvmSpaceP (fun _ =>
       pbind (ptag "section") (fun _ =>
       pbind llvmSpaceP (fun _ =>
       pbind (pchar dquo) (fun _ =>
       pbind (pmap (fun cs => String.mk cs) (pisNotL [dquo])) (fun name =>
       pbind (pchar dquo) (fun _ =>
       pbind llvmSpaceP (fun _ =>
       ppure name))))))))))
    (fun sec =>
  pbind alignmentP (fun align =>
  ppure
    { linkage := l, visibility := v, dll_storage_class := dll,
      thread_local := loc, unnamed_addr := ua, addr_space := addrsp,
      externally_initialized := ext, global_type := gtp, types := tp,
      initialization := init, sect := sec, alignment := align }))))))))))))))

/- ### Instructions (src/src/lib.rs `call`, `instruction_c`, `instruction`,
`basic_block`) -/

/-- `call`. -/
def callP (ctx_args : List (Option String × Ty)) :
    Parser (CallingConv × Option (Ty × ParAttrs) × Value × List (Typed Value) × List AttributeGroup) :=
  pbind (ptag "call") (fun _ =>
  pbind llvmSpaceP (fun _ =>
  pbind (palt (pterminated callingConvP llvmSpaceP) (ppure CallingConv.C)) (fun cc =>
  pbind parAttrs (fun pattrs =>
  pbind
    (palt (pmap (fun _ => (none : Option (Ty × ParAttrs))) (ptag "void"))
      (pmap (fun t => some (t, pattrs)) typesP))
    (fun rtp =>
  pbind llvmSpaceP (fun _ =>
  pbind (valueP ctx_args) (fun fn =>
  pbind llvmSpaceP (fun _ =>
  pbind (pchar '(') (fun _ =>
  pbind llvmSpaceP (fun _ =>
  pbind
    (psepList (pterminated (pchar ',') llvmSpaceP)
      (pterminated (typedValueP ctx_args) llvmSpaceP))
    (fun args =>
  pbind (pchar ')') (fun _ =>
  pbind
    (pmany0 (pbind llvmSpaceP (fun _ => pbind (pchar '#') (fun _ => parseU64))))
    (fun attrs =>
  ppure (cc, rtp, fn, args, attrs))))))))))))))

/-- The binary-operation keyword table of the named-result instruction. -/
def binOpP : Parser BinOp :=
  paltl
    [ pbind (ptag "add") (fun _ =>
        pbind (pmap Option.isSome (popt (ppreceded llvmSpaceP (ptag "nuw")))) (fun nuw =>
        pbind (pmap Option.isSome (popt (ppreceded llvmSpaceP (ptag "nsw")))) (fun nsw =>
        ppure (BinOp.Add nuw nsw)))),
      pbind (ptag "sub") (fun _ =>
        pbind (pmap Option.isSome (popt (ppreceded llvmSpaceP (ptag "nuw")))) (fun nuw =>
        pbind (pmap Option.isSome (popt (ppreceded llvmSpaceP (ptag "nsw")))) (fun nsw =>
        ppure (BinOp.Sub nuw nsw)))),
      pbind (ptag "mul") (fun _ =>
        pbind (pmap Option.isSome (popt (ppreceded llvmSpaceP (ptag "nuw")))) (fun nuw =>
        pbind (pmap Option.isSome (popt (ppreceded llvmSpaceP (ptag "nsw")))) (fun nsw =>
        ppure (BinOp.Mul nuw nsw)))),
      pmap (fun _ => BinOp.And) (ptag "and"),
      pmap (fun _ => BinOp.Or) (ptag "or"),
      pmap (fun _ => BinOp.XOr) (ptag "xor"),
      pmap (fun _ => BinOp.AShr) (ptag "ashr"),
      pmap (fun _ => BinOp.LShr) (ptag "lshr"),
      pmap (fun _ => BinOp.Shl) (ptag "shl"),
      pbind (ptag "sdiv") (fun _ =>
        pbind (pmap Option.isSome (popt (ppreceded llvmSpaceP (ptag "exact")))) (fun exact =>
        ppure (BinOp.SDiv exact))) ]

/-- The cast-instruction keyword table. -/
def castInstP : Parser CastInst :=
  paltl
    [ pmap (fun _ => CastInst.Trunc) (ptag "trunc"),
      pmap (fun _ => CastInst.ZExt) (ptag "zext"),
      pmap (fun _ => CastInst.SExt) (ptag "sext"),
      pmap (fun _ => CastInst.Bitcast) (ptag "bitcast"),
      pmap (fun _ => CastInst.IntToPtr) (ptag "inttoptr"),
      pmap (fun _ => CastInst.PtrToInt) (ptag "ptrtoint") ]

/-- `instruction_c`. -/
def instructionCP (args : List (Option String × Ty)) : Parser InstructionC :=
  paltcl
    [ pmap
        (fun c => InstructionC.Call none c.1 c.2.1 c.2.2.1 c.2.2.2.1 c.2.2.2.2)
        (callP args),
      pbind (ptag "br") (fun _ =>
      pbind llvmSpaceP (fun _ =>
      palt
        (pbind (ptag "label") (fun _ =>
         pbind llvmSpaceP (fun _ =>
         pmap (fun n => InstructionC.Term (Terminator.Br n)) localName)))
        (pbind (ptag "i1") (fun _ =>
         pbind llvmSpaceP (fun _ =>
         pbind (valueP args) (fun c =>
         pbind llvmSpaceP (fun _ =>
         pbind (pchar ',') (fun _ =>
         pbind llvmSpaceP (fun _ =>
         pbind (ptag "label") (fun _ =>
         pbind llvmSpaceP (fun _ =>
         pbind localName (fun l1 =>
         pbind llvmSpaceP (fun _ =>
         pbind (pchar ',') (fun _ =>
         pbind llvmSpaceP (fun _ =>
         pbind (ptag "label") (fun _ =>
         pbind llvmSpaceP (fun _ =>
         pmap (fun l2 => InstructionC.Term (Terminator.BrC c l1 l2))
           localName))))))))))))))))),
      pmap (fun _ => InstructionC.Term Terminator.Unreachable) (ptag "unreachable"),
      pbind (ptag "store") (fun _ =>
      pbind llvmSpaceP (fun _ =>
      pbind (pmap Option.isSome (popt (pterminated (ptag "volatile") llvmSpaceP))) (fun vol =>
      pbind (typedValueP args) (fun obj =>
      pbind llvmSpaceP (fun _ =>
      pbind (pchar ',') (fun _ =>
      pbind llvmSpaceP (fun _ =>
      pbind (typedValueP args) (fun ptr =>
      pbind llvmSpaceP (fun _ =>
      pbind alignmentP (fun align =>
      ppure (InstructionC.Store vol obj ptr align))))))))))),
      pbind (ptag "ret") (fun _ =>
      pbind llvmSpaceP (fun _ =>
      pbind
        (paltcl
          [ pmap some (typedValueP args),
            pmap (fun _ => (none : Option (Typed Value))) (ptag "void") ])
        (fun rval =>
      ppure (InstructionC.Term (Terminator.Ret rval))))),
      pbind (ptag "switch") (fun _ =>
      pbind llvmSpaceP (fun _ =>
      pbind typesP (fun tp =>
      pbind llvmSpaceP (fun _ =>
      pbind (valueP args) (fun val =>
      pbind llvmSpaceP (fun _ =>
      pbind (pchar ',') (fun _ =>
      pbind llvmSpaceP (fun _ =>
      pbind (ptag "label") (fun _ =>
      pbind llvmSpaceP (fun _ =>
      pbind localName (fun dflt =>
      pbind llvmSpaceP (fun _ =>
      pbind (pchar '[') (fun _ =>
      pbind
        (pmany0
          (pbind llvmWsP (fun _ =>
           pbind typesP (fun _ =>
           pbind llvmSpaceP (fun _ =>
           pbind constantP (fun v =>
           pbind llvmSpaceP (fun _ =>
           pbind (pchar ',') (fun _ =>
           pbind llvmSpaceP (fun _ =>
           pbind (ptag "label") (fun _ =>
           pbind llvmSpaceP (fun _ =>
           pmap (fun lbl => (v, lbl)) localName)))))))))))
        (fun jmps =>
      pbind llvmWsP (fun _ =>
      pbind (pchar ']') (fun _ =>
      ppure (InstructionC.Term (Terminator.Switch tp val dflt jmps)))))))))))))))))),
      pbind localName (fun name =>
      pbind llvmSpaceP (fun _ =>
      pbind (pchar '=') (fun _ =>
      pbind llvmSpaceP (fun _ =>
      paltl
        [ pmap
            (fun c => InstructionC.Call (some name) c.1 c.2.1 c.2.2.1 c.2.2.2.1 c.2.2.2.2)
            (callP args),
          pbind (ptag "icmp") (fun _ =>
          pbind llvmSpaceP (fun _ =>
          pbind cmpOpP (fun op =>
          pbind llvmSpaceP (fun _ =>
          pbind typesP (fun tp =>
          pbind llvmSpaceP (fun _ =>
          pbind (valueP args) (fun v1 =>
          pbind llvmSpaceP (fun _ =>
          pbind (pchar ',') (fun _ =>
          pbind llvmSpaceP (fun _ =>
          pmap (fun v2 => InstructionC.ICmp name op tp v1 v2)
            (valueP args))))))))))),
          pbind (ptag "load") (fun _ =>
          pbind llvmSpaceP (fun _ =>
          pbind (pmap Option.isSome (popt (pterminated (ptag "volatile") llvmSpaceP))) (fun vol =>
          pbind (typedValueP args) (fun ptr =>
          pbind llvmSpaceP (fun _ =>
          pbind alignmentP (fun align =>
          ppure (InstructionC.Unary name ptr (UnaryInst.Load vol align)))))))),
          pbind castInstP (fun op =>
          pbind llvmSpaceP (fun _ =>
          pbind (typedValueP args) (fun val =>
          pbind llvmSpaceP (fun _ =>
          pbind (ptag "to") (fun _ =>
          pbind llvmSpaceP (fun _ =>
          pmap (fun trg => InstructionC.Unary name val (UnaryInst.Cast trg op))
            typesP)))))),
          pmap (fun g => InstructionC.GEP name g) (gepP (valueP args) false),
          pbind (ptag "select") (fun _ =>
          pbind llvmSpaceP (fun _ =>
          pbind (ptag "i1") (fun _ =>
          pbind llvmSpaceP (fun _ =>
          pbind (valueP args) (fun cond =>
          pbind llvmSpaceP (fun _ =>
          pbind (pchar ',') (fun _ =>
          pbind llvmSpaceP (fun _ =>
          pbind typesP (fun tp1 =>
          pbind llvmSpaceP (fun _ =>
          pbind (valueP args) (fun v1 =>
          pbind llvmSpaceP (fun _ =>
          pbind (pchar ',') (fun _ =>
          pbind llvmSpaceP (fun _ =>
          pbind typesP (fun _ =>
          pbind llvmSpaceP (fun _ =>
          pmap (fun v2 => InstructionC.Select name cond tp1 v1 v2)
            (valueP args))))))))))))))))),
          pbind (ptag "phi") (fun _ =>
          pbind llvmSpaceP (fun _ =>
          pbind typesP (fun tp =>
          pbind llvmSpaceP (fun _ =>
          pbind
            (psepList
              (pbind llvmSpaceP (fun _ => pbind (pchar ',') (fun _ => llvmSpaceP)))
              (pbind (pchar '[') (fun _ =>
               pbind llvmSpaceP (fun _ =>
               pbind (valueP args) (fun v =>
               pbind llvmSpaceP (fun _ =>
               pbind (pchar ',') (fun _ =>
               pbind llvmSpaceP (fun _ =>
               pbind localName (fun blk =>
               pbind llvmSpaceP (fun _ =>
               pbind (pchar ']') (fun _ =>
               ppure (v, blk))))))))))))
            (fun trgs =>
          ppure (InstructionC.Phi name tp trgs)))))),
          pbind binOpP (fun op =>
          pbind llvmSpaceP (fun _ =>
          pbind typesP (fun tp =>
          pbind llvmSpaceP (fun _ =>
          pbind (valueP args) (fun v1 =>
          pbind llvmSpaceP (fun _ =>
          pbind (pchar ',') (fun _ =>
          pbind llvmSpaceP (fun _ =>
          pmap (fun v2 => InstructionC.Bin name op tp v1 v2)
            (valueP args))))))))),
          pbind (ptag "alloca") (fun _ =>
          pbind llvmSpaceP (fun _ =>
          pbind typesP (fun tp =>
          pbind llvmSpaceP (fun _ =>
          pbind (popt (ppreceded (pterminated (pchar ',') llvmSpaceP) (typedValueP args))) (fun num =>
          pbind alignmentP (fun align =>
          ppure (InstructionC.Alloca name tp num align))))))) ])))) ]

/-- One trailing `, !kind !N` metadata annotation of an instruction. -/
def instMetaP : Parser (String × Nat) :=
  pbind llvmSpaceP (fun _ =>
  pbind (pchar ',') (fun _ =>
  pbind llvmSpaceP (fun _ =>
  pbind (pchar '!') (fun _ =>
  pbind (pmap (fun cs => String.mk cs) (pisNotL [' ', '\t', '\r', '\n'])) (fun name =>
  pbind llvmSpaceP (fun _ =>
  pbind (pchar '!') (fun _ =>
  pbind parseU64 (fun n =>
  ppure (name, n)))))))))

/-- `instruction`: content plus the folded metadata annotations. -/
def instructionP (args : List (Option String × Ty)) : Parser Instruction :=
  pbind (instructionCP args) (fun cont =>
  pbind (pfoldMany0 instMetaP [] (fun mp nv => alInsert nv.1 nv.2 mp)) (fun md =>
  ppure (Instruction.mk cont md)))

/-- The fallback arm of `basic_block`'s instruction loop: a line that is
neither a closing `}` nor a new label panics
(`panic!("Cannot parse instruction: …")`). -/
def bbFallbackP : Parser Instruction :=
  ppreceded
    (pnot
      (paltl
        [ pmap (fun _ => ()) (pchar '}'),
          ppreceded (pisNotL ['}', ' ', '\t', '\n', ':'])
            (pmap (fun _ => ()) (pchar ':')) ]))
    (pbind (pisNotL ['\n']) (fun _ => fatalP))

/-- `basic_block`. -/
def basicBlockP (args : List (Option String × Ty)) : Parser BasicBlock :=
  pbind (pmap (fun cs => String.mk cs) (pisNotL ['}', ' ', '\t', '\n', ':'])) (fun name =>
  pbind (pchar ':') (fun _ =>
  pbind (pmany0 (ppreceded llvmNlP (palt (instructionP args) bbFallbackP))) (fun instrs =>
  ppure (BasicBlock.mk name instrs))))

/- ### Module elements (src/src/lib.rs `function_definition`, `module_element`,
`module`) -/

/-- `function_definition`. -/
def functionDefinitionP : Parser (String × Function) :=
  pbind
    (paltl
      [ pmap (fun _ => true) (ptag "define"),
        pmap (fun _ => false) (ptag "declare") ])
    (fun isDef =>
  pbind llvmSpaceP (fun _ =>
  pbind (popt (pterminated linkageP llvmSpaceP)) (fun lnk =>
  pbind (palt (pterminated visibilityP llvmSpaceP) (ppure Visibility.Default)) (fun vis =>
  pbind (palt (pterminated dllStorageClassP llvmSpaceP) (ppure DLLStorageClass.Default)) (fun stcls =>
  pbind (palt (pterminated callingConvP llvmSpaceP) (ppure CallingConv.C)) (fun cc =>
  pbind
    (palt (pmap (fun _ => (none : Option (ParAttrs × Ty))) (ptag "void"))
      (pmap some (ppair parAttrs typesP)))
    (fun ret =>
  pbind llvmSpaceP (fun _ =>
  pbind globalName (fun name =>
  pbind llvmSpaceP (fun _ =>
  pbind (pchar '(') (fun _ =>
  pbind llvmSpaceP (fun _ =>
  pbind
    (psepList (pdelimited llvmSpaceP (pchar ',') llvmSpaceP)
      (pbind typesP (fun tp =>
       pbind (popt (ppreceded llvmSpaceP localName)) (fun n =>
       ppure ((n, tp) : Option String × Ty)))))
    (fun args =>
  pbind
    (pmap Option.isSome
      (popt
        (pbind (pcond (!args.isEmpty) (pterminated (pchar ',') llvmSpaceP)) (fun _ =>
         pbind (ptag "...") (fun _ =>
         ppure ())))))
    (fun va =>
  pbind llvmSpaceP (fun _ =>
  pbind (pchar ')') (fun _ =>
  pbind llvmSpaceP (fun _ =>
  pbind (pmany0 (pdelimited (pchar '#') parseU64 llvmSpaceP)) (fun attrs =>
  pbind llvmSpaceP (fun _ =>
  pbind
    (pcond isDef
      (pbind (pchar '{') (fun _ =>
       pbind llvmNlP (fun _ =>
       pbind (pmany0 (pterminated (basicBlockP args) llvmNlP)) (fun blks =>
       pbind (pchar '}') (fun _ =>
       ppure blks))))))
    (fun blks =>
  ppure
    (name,
      Function.mk name lnk vis stcls cc ret args va attrs blks)))))))))))))))))))))

/-- `comment`. -/
def commentP : Parser (List Char) :=
  ppreceded (pchar ';') (pisNotL ['\n'])

/-- `module_id`.  The source tag `"; ModuleID = '"` (which ends in the
apostrophe) is split here into the tag and a following character match;
the combined recognizer is the same. -/
def moduleIdP : Parser String :=
  pbind (ptag "; ModuleID = ") (fun _ =>
  pbind (pchar squo) (fun _ =>
  pbind (pmap (fun cs => String.mk cs) (pisNotL [squo])) (fun s =>
  pbind (pchar squo) (fun _ =>
  ppure s))))

/-- `triple` (a `ws!`-wrapped sequence: whitespace, including newlines, may
appear around each token). -/
def tripleP : Parser String :=
  pbind wsSkipP (fun _ =>
  pbind (ptag "target") (fun _ =>
  pbind wsSkipP (fun _ =>
  pbind (ptag "triple") (fun _ =>
  pbind wsSkipP (fun _ =>
  pbind (pchar '=') (fun _ =>
  pbind wsSkipP (fun _ =>
  pbind (pchar dquo) (fun _ =>
  pbind (pmap (fun cs => String.mk cs) (pisNotL [dquo])) (fun trp =>
  pbind (pchar dquo) (fun _ =>
  pbind wsSkipP (fun _ =>
  ppure trp)))))))))))

/-- Modelled from the spec: the `datalayout` element (the crate's
`datalayout` module is not under src/).  Only the surface shape
`target datalayout = "…"` of §6 is modelled; the quoted specification is
retained raw (§4.3's segment mini-language is not needed by any claim). -/
def dataLayoutP : Parser DataLayout :=
  pbind wsSkipP (fun _ =>
  pbind (ptag "target") (fun _ =>
  pbind wsSkipP (fun _ =>
  pbind (ptag "datalayout") (fun _ =>
  pbind wsSkipP (fun _ =>
  pbind (pchar '=') (fun _ =>
  pbind wsSkipP (fun _ =>
  pbind (pchar dquo) (fun _ =>
  pbind
    (fun inp =>
      .done (inp.dropWhile (fun c => !(c = dquo)))
        (String.mk (inp.takeWhile (fun c => !(c = dquo)))))
    (fun raw =>
  pbind (pchar dquo) (fun _ =>
  pbind wsSkipP (fun _ =>
  ppure (DataLayout.mk (some raw)))))))))))))

/-- `type_def` (a `ws!`-wrapped sequence). -/
def typeDefP : Parser (String × Ty) :=
  pbind wsSkipP (fun _ =>
  pbind localName (fun name =>
  pbind wsSkipP (fun _ =>
  pbind (pchar '=') (fun _ =>
  pbind wsSkipP (fun _ =>
  pbind (ptag "type") (fun _ =>
  pbind wsSkipP (fun _ =>
  pbind typesP (fun tp =>
  pbind wsSkipP (fun _ =>
  ppure (name, tp))))))))))

/-- `global_def`. -/
def globalDefP : Parser (String × GlobalVariable) :=
  pbind globalName (fun name =>
  pbind llvmSpaceP (fun _ =>
  pbind (pchar '=') (fun _ =>
  pbind llvmSpaceP (fun _ =>
  pbind globalVariableP (fun glob =>
  ppure (name, glob))))))

/-- `NO_ARGS`. -/
def noArgs : List (Option String × Ty) := []

/-- The function-merge rule of `module_element` (the `HashMap::entry` match
of src/src/lib.rs lines 809-814): a vacant entry is inserted; an occupied
entry is overwritten only when the existing function has no body. -/
def mergeFunction (m : List (String × Function)) (name : String) (fn : Function) :
    List (String × Function) :=
  match alLookup name m with
  | some existing => if ¬ existing.isDefined then alInsert name fn m else m
  | none => alInsert name fn m

/-- `module_element`. -/
def moduleElementP (m : Module) : Parser Module :=
  paltl
    [ pmap (fun id => { m with id := some id }) moduleIdP,
      pmap (fun dl => { m with datalayout := dl }) dataLayoutP,
      pmap (fun tr => { m with triple := some tr }) tripleP,
      pmap (fun nt => { m with types := alInsert nt.1 nt.2 m.types }) typeDefP,
      pmap (fun ng => { m with globals := alInsert ng.1 ng.2 m.globals }) globalDefP,
      pmap (fun nf => { m with functions := mergeFunction m.functions nf.1 nf.2 })
        functionDefinitionP,
      pmap (fun na => { m with attr_groups := alInsert na.1 na.2 m.attr_groups })
        attributeGroupP,
      pmap (fun nm => { m with md := alInsert nm.1 nm.2 m.md }) (numMetadataP noArgs),
      pmap (fun nm => { m with named_md := alInsert nm.1 nm.2 m.named_md })
        (namedMetadataP noArgs),
      pmap (fun _ => m) commentP ]

/-- The empty module the driver starts from. -/
def emptyModule : Module :=
  { id := none, datalayout := DataLayout.new, triple := none, functions := [],
    types := [], globals := [], attr_groups := [], named_md := [], md := [] }

/-- The inter-element whitespace skip of the `module` driver loop
(src/src/lib.rs lines 1166-1168): space, tab and newline characters. -/
def isSkipChar (c : Char) : Bool :=
  c = ' ' ∨ c = '\t' ∨ c = '\n'

/-- Skip inter-element whitespace. -/
def skipWsNl (inp : List Char) : List Char :=
  inp.dropWhile isSkipChar

/-- The driver loop of `module`: parse elements until the input is empty;
`Error` and `Incomplete` both `panic!` ("Not parsed: …"), modelled by
`fatal`.  The fuel only bounds the model's recursion: exhaustion (`fatal`)
likewise models the loop failing to return (it cannot be reached when every
element consumes input, which holds for every input considered below). -/
def moduleLoop : Nat → Module → List Char → IResult Module
  | 0, _, _ => .fatal
  | f+1, m, inp =>
    if inp.isEmpty then .done [] m
    else
      match moduleElementP m inp with
      | .done ninp m2 => moduleLoop f m2 (skipWsNl ninp)
      | .error => .fatal
      | .incomplete => .fatal
      | .fatal => .fatal

/-- `module`: the buffer-level parse entry point. -/
def moduleP (inp : List Char) : IResult Module :=
  moduleLoop (inp.length + 1) emptyModule inp

/- ### Supporting definitions for the verification -/

/-- Merging a sequence of parsed function declarations/definitions into an
initially empty function map, exactly as the driver does one element at a
time. -/
def mergeFunctions (fs : List (String × Function)) : List (String × Function) :=
  fs.foldl (fun m nf => mergeFunction m nf.1 nf.2) []

/-- The characters that terminate the `!kind` identifier of a trailing
instruction annotation (the `is_not!(" \t\r\n")` set). -/
def annotStopChars : List Char := [' ', '\t', '\r', '\n']

/-- Concrete text of one trailing annotation: `, !<name> !<digits>`. -/
def renderAnnot (a : List Char × List Char) : List Char :=
  [',', ' ', '!'] ++ a.1 ++ [' ', '!'] ++ a.2

/-- Concrete text of a sequence of trailing annotations. -/
def renderAnnots (as : List (List Char × List Char)) : List Char :=
  (as.map renderAnnot).flatten

/-- A well-formed annotation: a non-empty `!kind` name free of the stop
characters, and a non-empty digit run for the `!N` id. -/
def validAnnot (a : List Char × List Char) : Prop :=
  a.1 ≠ [] ∧ (∀ c ∈ a.1, annotStopChars.contains c = false) ∧
  a.2 ≠ [] ∧ (∀ c ∈ a.2, c.isDigit = true)

/-- Input following the annotations must not begin with horizontal space, a
comma, or a digit, so that the greedy annotation fold stops exactly there. -/
def restOk : List Char → Prop
  | [] => True
  | c :: _ => isHSpace c = false ∧ ¬ c = ',' ∧ c.isDigit = false

/-- The metadata map an annotation sequence folds to (later bindings of the
same kind replace earlier ones, as `HashMap::insert` does). -/
def mdOf (as : List (List Char × List Char)) : List (String × Nat) :=
  as.foldl (fun mp a => alInsert (String.mk a.1) (digitsToNat a.2) mp) []

/-- The id of the last annotation with a given kind, if any. -/
def lastValue (k : String) (as : List (List Char × List Char)) : Option Nat :=
  as.foldl (fun acc a => if String.mk a.1 = k then some (digitsToNat a.2) else acc) none

/-- Generalization of `lastValue` to an arbitrary starting accumulator. -/
def lastValueFrom (k : String) (i : Option Nat) (as : List (List Char × List Char)) :
    Option Nat :=
  as.foldl (fun acc a => if String.mk a.1 = k then some (digitsToNat a.2) else acc) i

/-- The types covered by the zero-initializer recursion of the claim:
`Int`, `Pointer`, and `Array` over such a type. -/
inductive ZeroShaped : Ty → Prop where
  | int : ∀ bw, ZeroShaped (Ty.Int bw)
  | ptr : ∀ t a, ZeroShaped (Ty.Pointer t a)
  | arr : ∀ n t, ZeroShaped t → ZeroShaped (Ty.Array n t)

/-- A constant is structurally a tree of `Int(0)`/`NullPtr` matching the
shape of the given type. -/
def matchesZeroShape : Ty → Constant → Bool
  | Ty.Int _, Constant.Int v => v == 0
  | Ty.Pointer _ _, Constant.NullPtr => true
  | Ty.Array n t, Constant.Array cs =>
    (cs.length == n) && cs.all (fun c => matchesZeroShape t c)
  | _, _ => false

/-- The literal input of scenario S3 exactly as the claim states it (with
the malformed second icmp operand `i32 0`). -/
def s3LiteralInput : List Char :=
  "define i32 @f(i32 %x) \x7b\nentry:\n  %c = icmp sgt i32 %x, i32 0\n  br i1 %c, label %t, label %e\nt:\n  ret i32 1\ne:\n  ret i32 0\n\x7d".toList

/-- Scenario S3's input with the icmp line written in the form the grammar
accepts: `%c = icmp sgt i32 %x, 0` (the second operand of `icmp` is a bare
value, not a typed value). -/
def s3AmendedInput : List Char :=
  "define i32 @f(i32 %x) \x7b\nentry:\n  %c = icmp sgt i32 %x, 0\n  br i1 %c, label %t, label %e\nt:\n  ret i32 1\ne:\n  ret i32 0\n\x7d".toList

/-- The function scenario S3 is expected to produce: blocks `entry`, `t`,
`e` in source order; the `%x` operand of the ICmp resolved to `Argument 0`;
the `%c` operand of the conditional branch resolved to `Local "c"`. -/
def s3ExpectedFun : Function :=
  { name := "f", linkage := none, visibility := Visibility.Default,
    dll_storage_class := DLLStorageClass.Default, cconv := CallingConv.C,
    return_type := some (ParAttrs.new, Ty.Int 32),
    arguments := [(some "x", Ty.Int 32)], var_args := false,
    attribute_groups := [],
    body := some
      [ { name := "entry",
          instrs :=
            [ { content := InstructionC.ICmp "c" CmpOp.SGt (Ty.Int 32)
                  (Value.Argument 0) (Value.Constant (Constant.Int 0)),
                metadata := [] },
              { content := InstructionC.Term
                  (Terminator.BrC (Value.Local "c") "t" "e"),
                metadata := [] } ] },
        { name := "t",
          instrs :=
            [ { content := InstructionC.Term
                  (Terminator.Ret (some (Typed.mk (Ty.Int 32)
                    (Value.Constant (Constant.Int 1))))),
                metadata := [] } ] },
        { name := "e",
          instrs :=
            [ { content := InstructionC.Term
                  (Terminator.Ret (some (Typed.mk (Ty.Int 32)
                    (Value.Constant (Constant.Int 0))))),
                metadata := [] } ] } ] }

/-- Scenario S2's input: a global with a `zeroinitializer` initializer. -/
def s2Input : List Char :=
  "@g = global [4 x i8] zeroinitializer, align 1".toList

/-- The global variable scenario S2 produces: the elaborated initializer is
the four-element array of `Int 0`. -/
def s2ExpectedGlobal : GlobalVariable :=
  { linkage := none, visibility := Visibility.Default,
    dll_storage_class := DLLStorageClass.Default, thread_local := none,
    unnamed_addr := none, addr_space := none, externally_initialized := false,
    global_type := GlobalType.Global, types := Ty.Array 4 (Ty.Int 8),
    initialization := some (Constant.Array
      [Constant.Int 0, Constant.Int 0, Constant.Int 0, Constant.Int 0]),
    sect := none, alignment := some 1 }

/-- The byte-string constant `c"\-5"`: a backslash followed by `-5`, which
`BigInt::parse_bytes(_, 16)` accepts as a signed hexadecimal numeral. -/
def c7FailingInput : List Char :=
  ['c', dquo, bslash, '-', '5', dquo]

/-- A module of two elements separated by a single newline. -/
def c9BaseInput : List Char :=
  "declare i32 @p(i32)\n!0 = !3\n".toList

/-- The same module with extra horizontal whitespace and blank lines
inserted between the two top-level elements. -/
def c9SpacedInput : List Char :=
  "declare i32 @p(i32)  \n\n \t \n\n!0 = !3\n".toList

/-- A declaration of `@f` (no body). -/
def c1DeclFn : Function :=
  { name := "f", linkage := none, visibility := Visibility.Default,
    dll_storage_class := DLLStorageClass.Default, cconv := CallingConv.C,
    return_type := none, arguments := [], var_args := false,
    attribute_groups := [], body := none }

/-- A definition of `@f` (empty body, but a body). -/
def c1DefFn : Function :=
  { c1DeclFn with body := some [] }

/- ## Theorems -/

/- ### Association lists -/

theorem alLookup_alInsert_self {κ ν : Type} [DecidableEq κ] (k : κ) (v : ν) :
    ∀ (l : List (κ × ν)), alLookup k (alInsert k v l) = some v := by
  intro l
  induction l with
  | nil => simp [alInsert, alLookup]
  | cons hd tl ih =>
    obtain ⟨k2, v2⟩ := hd
    by_cases h : k2 = k
    · simp [alInsert, alLookup, h]
    · simp [alInsert, alLookup, h, ih]

theorem alLookup_alInsert_ne {κ ν : Type} [DecidableEq κ] (k k2 : κ) (v : ν)
    (hne : ¬ k2 = k) :
    ∀ (l : List (κ × ν)), alLookup k (alInsert k2 v l) = alLookup k l := by
  intro l
  induction l with
  | nil => simp [alInsert, alLookup, hne]
  | cons hd tl ih =>
    obtain ⟨k3, v3⟩ := hd
    by_cases h3 : k3 = k2
    · subst h3
      simp [alInsert, alLookup, hne]
    · simp only [alInsert, h3, if_false]
      by_cases h4 : k3 = k
      · simp [alLookup, h4]
      · simp [alLookup, h4, ih]

theorem alLookup_alInsert_isSome {κ ν : Type} [DecidableEq κ] (k k2 : κ) (v : ν)
    (l : List (κ × ν)) :
    (alLookup k (alInsert k2 v l)).isSome = true
      ↔ k2 = k ∨ (alLookup k l).isSome = true := by
  by_cases h : k2 = k
  · subst h
    simp [alLookup_alInsert_self]
  · simp [alLookup_alInsert_ne k k2 v h, h]

/- ### C1: the function-merge rule -/

/-- The merge rule, written as a case split on the existing entry. -/
theorem mergeFunction_eq (m : List (String × Function)) (nm : String) (fn : Function) :
    mergeFunction m nm fn =
      match alLookup nm m with
      | some e => if e.isDefined then m else alInsert nm fn m
      | none => alInsert nm fn m := by
  unfold mergeFunction
  cases h : alLookup nm m with
  | none => rfl
  | some e => cases hd : e.isDefined <;> simp [hd]

theorem mergeFunction_lookup_other (m : List (String × Function))
    (nm k : String) (fn : Function) (hne : ¬ nm = k) :
    alLookup k (mergeFunction m nm fn) = alLookup k m := by
  rw [mergeFunction_eq]
  cases h : alLookup nm m with
  | none => simp [alLookup_alInsert_ne k nm fn hne]
  | some e =>
    cases hd : e.isDefined with
    | true => simp [hd]
    | false => simp [hd, alLookup_alInsert_ne k nm fn hne]

theorem mergeFunction_lookup_self (m : List (String × Function))
    (nm : String) (fn : Function) :
    alLookup nm (mergeFunction m nm fn) =
      match alLookup nm m with
      | some e => if e.isDefined then some e else some fn
      | none => some fn := by
  rw [mergeFunction_eq]
  cases h : alLookup nm m with
  | none => simp [alLookup_alInsert_self]
  | some e =>
    cases hd : e.isDefined with
    | true => simp [hd, h]
    | false => simp [hd, alLookup_alInsert_self]

theorem mergeFunctions_fold_isSome (name : String) :
    ∀ (fs : List (String × Function)) (m : List (String × Function)),
      (alLookup name (fs.foldl (fun m2 nf => mergeFunction m2 nf.1 nf.2) m)).isSome = true
        ↔ (alLookup name m).isSome = true ∨ ∃ p ∈ fs, p.1 = name := by
  intro fs
  induction fs with
  | nil => intro m; simp
  | cons p fs ih =>
    intro m
    rw [List.foldl_cons, ih]
    have hstep : (alLookup name (mergeFunction m p.1 p.2)).isSome = true
        ↔ p.1 = name ∨ (alLookup name m).isSome = true := by
      by_cases hne : p.1 = name
      · subst hne
        rw [mergeFunction_lookup_self]
        cases h : alLookup p.1 m with
        | none => simp
        | some e => cases hd : e.isDefined <;> simp [hd, h]
      · rw [mergeFunction_lookup_other m p.1 name p.2 hne]
        simp [hne]
    rw [hstep]
    constructor
    · intro hc
      rcases hc with (h1 | h2) | h3
      · right; exact ⟨p, List.mem_cons_self p fs, h1⟩
      · left; exact h2
      · obtain ⟨q, hq, hqn⟩ := h3
        right; exact ⟨q, List.mem_cons_of_mem p hq, hqn⟩
    · intro hc
      rcases hc with h1 | ⟨q, hq, hqn⟩
      · left; right; exact h1
      · rcases List.mem_cons.mp hq with hq1 | hq2
        · left; left; rw [← hq1]; exact hqn
        · right; exact ⟨q, hq2, hqn⟩

theorem mergeFunctions_fold_defined (name : String) :
    ∀ (fs : List (String × Function)) (m : List (String × Function)) (g : Function),
      alLookup name (fs.foldl (fun m2 nf => mergeFunction m2 nf.1 nf.2) m) = some g →
      (g.isDefined = true
        ↔ (∃ g0, alLookup name m = some g0 ∧ g0.isDefined = true)
          ∨ ∃ p ∈ fs, p.1 = name ∧ p.2.isDefined = true) := by
  intro fs
  induction fs with
  | nil =>
    intro m g hg
    simp only [List.foldl_nil] at hg
    simp only [List.not_mem_nil, false_and, exists_false, or_false]
    constructor
    · intro hd; exact ⟨g, hg, hd⟩
    · rintro ⟨g0, hg0, hd0⟩
      rw [hg, Option.some.injEq] at hg0
      rw [← hg0] at hd0
      exact hd0
  | cons p fs ih =>
    intro m g hg
    rw [List.foldl_cons] at hg
    rw [ih (mergeFunction m p.1 p.2) g hg]
    have hstep : (∃ g0, alLookup name (mergeFunction m p.1 p.2) = some g0 ∧ g0.isDefined = true)
        ↔ (∃ g0, alLookup name m = some g0 ∧ g0.isDefined = true)
          ∨ (p.1 = name ∧ p.2.isDefined = true) := by
      by_cases hne : p.1 = name
      · subst hne
        rw [mergeFunction_lookup_self]
        cases h : alLookup p.1 m with
        | none => simp
        | some e =>
          cases hd : e.isDefined with
          | true => simp [hd]
          | false => simp [hd]
      · rw [mergeFunction_lookup_other m p.1 name p.2 hne]
        simp [hne]
    rw [hstep]
    constructor
    · rintro ((h1 | ⟨h2a, h2b⟩) | ⟨q, hq, hqn, hqd⟩)
      · left; exact h1
      · right; exact ⟨p, List.mem_cons_self p fs, h2a, h2b⟩
      · right; exact ⟨q, List.mem_cons_of_mem p hq, hqn, hqd⟩
    · rintro (h1 | ⟨q, hq, hqn, hqd⟩)
      · left; left; exact h1
      · rcases List.mem_cons.mp hq with hq1 | hq2
        · subst hq1; left; right; exact ⟨hqn, hqd⟩
        · right; exact ⟨q, hq2, hqn, hqd⟩

/-- C1: function merge precedence.  Folding any sequence of parsed
functions through the `module_element` merge rule produces a map whose
entry for a name exists iff the sequence contains that name, is defined
(has a body) iff some entry of the sequence with that name had one, and a
defined entry is never replaced by a later entry. -/
theorem c1_function_merge :
    ∀ (fs : List (String × Function)) (name : String),
      ((alLookup name (mergeFunctions fs)).isSome = true ↔ ∃ p ∈ fs, p.1 = name)
      ∧ (∀ g, alLookup name (mergeFunctions fs) = some g →
          (g.isDefined = true ↔ ∃ p ∈ fs, p.1 = name ∧ p.2.isDefined = true))
      ∧ (∀ (m : List (String × Function)) (fn g : Function),
          alLookup name m = some g → g.isDefined = true →
          alLookup name (mergeFunction m name fn) = some g) := by
  intro fs name
  refine ⟨?_, ?_, ?_⟩
  · rw [mergeFunctions, mergeFunctions_fold_isSome]
    simp [alLookup]
  · intro g hg
    rw [mergeFunctions] at hg
    rw [mergeFunctions_fold_defined name fs [] g hg]
    simp [alLookup]
  · intro m fn g hl hd
    rw [mergeFunction_lookup_self, hl]
    simp [hd]

/-- C1 witness: with a declaration followed by a definition of `@f`, the
merged entry is the defined one. -/
theorem c1_function_merge_witness :
    c1DefFn.isDefined = true
      ↔ ∃ p ∈ [("f", c1DeclFn), ("f", c1DefFn)], p.1 = "f" ∧ p.2.isDefined = true :=
  (c1_function_merge [("f", c1DeclFn), ("f", c1DefFn)] "f").2.1 c1DefFn rfl

/-- Dropping a `p`-satisfying prefix: prepending characters that all
satisfy `p` does not change the result of `dropWhile p`. -/
theorem dropWhile_append_of_all {p : Char → Bool} :
    ∀ (w s : List Char), (∀ c ∈ w, p c = true) →
      (w ++ s).dropWhile p = s.dropWhile p := by
  intro w
  induction w with
  | nil => intro s _; rfl
  | cons c cs ih =>
    intro s hall
    have hc : p c = true := hall c (List.mem_cons_self c cs)
    simp [List.dropWhile, hc, ih s (fun x hx => hall x (List.mem_cons_of_mem c hx))]

/-- The driver loop either returns a module with the whole input consumed,
or fails to return (panic / divergence, both `fatal`). -/
theorem moduleLoop_total :
    ∀ (fuel : Nat) (m : Module) (inp : List Char),
      (∃ m2, moduleLoop fuel m inp = .done [] m2) ∨ moduleLoop fuel m inp = .fatal := by
  intro fuel
  induction fuel with
  | zero => intro m inp; right; rfl
  | succ f ih =>
    intro m inp
    rw [moduleLoop]
    by_cases h : inp.isEmpty
    · left; exact ⟨m, by simp [h]⟩
    · simp only [h, if_false]
      cases moduleElementP m inp with
      | done ninp m2 => exact ih m2 (skipWsNl ninp)
      | error => right; rfl
      | incomplete => right; rfl
      | fatal => right; rfl

/-- C3: the claim's literal scenario input does not parse — the second
`icmp` operand `i32 0` is not a value, so the basic-block fallback
`panic!`s and the whole parse aborts. -/
theorem c3_counterexample : moduleP s3LiteralInput = .fatal := rfl

/-- C3 (amended): with the icmp line written `%c = icmp sgt i32 %x, 0`
(bare value operand, as the grammar requires), the parse succeeds and
yields the function with basic blocks `entry`, `t`, `e` in source order,
the `%x` operand of the ICmp resolved to `Argument 0`, and the `%c`
operand of the conditional branch resolved to `Local "c"`. -/
theorem c3_amended_ok :
    moduleP s3AmendedInput =
      .done [] { emptyModule with functions := [("f", s3ExpectedFun)] }
    ∧ s3ExpectedFun.body.map (fun bs => bs.map BasicBlock.name)
        = some ["entry", "t", "e"] :=
  ⟨rfl, rfl⟩

/-- C5: the parse entry point does not return an error value on
unrecognizable input — it panics (`fatal`), already on the one-byte
input `?`. -/
theorem c5_counterexample : moduleP ("?".toList) = .fatal := rfl

/-- C5 (amended): for every input buffer, the parse entry point either
returns a fully populated Module with the whole input consumed, or aborts
by panic at the first unrecognizable construct; it never returns an error
value to the caller. -/
theorem c5_amended_total :
    ∀ inp, (∃ m, moduleP inp = .done [] m) ∨ moduleP inp = .fatal := by
  intro inp
  exact moduleLoop_total (inp.length + 1) emptyModule inp

/- ### C6: zero-initializer elaboration -/

/-- C6: zero-initializer elaboration.  Over every type built from `Int`,
`Pointer` and `Array` the recursion of `Constant::zero_init` succeeds and
returns a constant that is structurally a tree of `Int 0`/`NullPtr`
matching the type's shape; and parsing scenario S2's global stores exactly
the elaborated zero of its declared type `[4 x i8]`. -/
theorem c6_zero_init :
    (∀ tp, ZeroShaped tp → ∃ c, zeroInit tp = some c ∧ matchesZeroShape tp c = true)
    ∧ moduleP s2Input = .done [] { emptyModule with globals := [("g", s2ExpectedGlobal)] } := by
  constructor
  · intro tp h
    induction h with
    | int bw => exact ⟨Constant.Int 0, rfl, rfl⟩
    | ptr t a => exact ⟨Constant.NullPtr, rfl, rfl⟩
    | arr n t _ ih =>
      obtain ⟨c, hc, hm⟩ := ih
      refine ⟨Constant.Array (List.replicate n c), ?_, ?_⟩
      · simp [zeroInit, hc]
      · simp only [matchesZeroShape, List.length_replicate, beq_self_eq_true,
          Bool.true_and, List.all_eq_true]
        intro x hx
        rw [List.eq_of_mem_replicate hx]
        exact hm
  · rfl

/-- C6 witness: the zero initializer of `[2 x i8*]` exists and matches the
type's shape. -/
theorem c6_zero_init_witness :
    ∃ c, zeroInit (Ty.Array 2 (Ty.Pointer (Ty.Int 8) none)) = some c
      ∧ matchesZeroShape (Ty.Array 2 (Ty.Pointer (Ty.Int 8) none)) c = true :=
  c6_zero_init.1 _ (ZeroShaped.arr 2 _ (ZeroShaped.ptr (Ty.Int 8) none))

/- ### C7: byte-string constants -/

/-- C7: the byte-string decoder is wrong on signed escapes.  On the input
`c"\-5"` the parser hands the two characters after the backslash to
`BigInt::parse_bytes(_, 16)`, which accepts the sign, so the parsed
constant is the ONE-element array `[Int (-5)]` — instead of the three
bytes `[92, 45, 53]` of the claim's `\\HH` decoding — and its element is
negative, outside `[0, 255]`. -/
theorem c7_bytestring_bug :
    constantP c7FailingInput = .done [] (Constant.Array [Constant.Int (-5)])
    ∧ (-5 : Int) < 0 :=
  ⟨rfl, by decide⟩

/- ### C2: Argument-vs-Local resolution -/

/-- The `value` parser in closed form: a leading `%name` resolves to
`Argument i` exactly when the argument list contains the name (at the
first such index), else to `Local name`; without a leading local name the
`constant` alternative decides. -/
theorem valueP_eq (args : List (Option String × Ty)) (inp : List Char) :
    valueP args inp =
      match localName inp with
      | .done rest nm =>
        match args.findIdx? (fun arg =>
            match arg.1 with
            | some oname => oname = nm
            | none => false) with
        | some i => .done rest (Value.Argument i)
        | none => .done rest (Value.Local nm)
      | .fatal => .fatal
      | _ =>
        match constantP inp with
        | .done r c => .done r (Value.Constant c)
        | .fatal => .fatal
        | _ => .error := by
  unfold valueP paltcl paltl argumentP
  simp only [List.map, List.foldr]
  cases hl : localName inp with
  | done rest nm =>
    cases hf : args.findIdx? (fun arg =>
        match arg.1 with
        | some oname => oname = nm
        | none => false) with
    | some i => simp [palt, pcomplete, pmap, pmapOpt, pbind, ppure, hl, hf]
    | none => simp [palt, pcomplete, pmap, pmapOpt, pbind, ppure, hl, hf]
  | error =>
    cases hc : constantP inp with
    | done r c => simp [palt, pcomplete, pmap, pmapOpt, pbind, ppure, pfail, hl, hc]
    | error => simp [palt, pcomplete, pmap, pmapOpt, pbind, ppure, pfail, hl, hc]
    | incomplete => simp [palt, pcomplete, pmap, pmapOpt, pbind, ppure, pfail, hl, hc]
    | fatal => simp [palt, pcomplete, pmap, pmapOpt, pbind, ppure, pfail, hl, hc]
  | incomplete =>
    cases hc : constantP inp with
    | done r c => simp [palt, pcomplete, pmap, pmapOpt, pbind, ppure, pfail, hl, hc]
    | error => simp [palt, pcomplete, pmap, pmapOpt, pbind, ppure, pfail, hl, hc]
    | incomplete => simp [palt, pcomplete, pmap, pmapOpt, pbind, ppure, pfail, hl, hc]
    | fatal => simp [palt, pcomplete, pmap, pmapOpt, pbind, ppure, pfail, hl, hc]
  | fatal => simp [palt, pcomplete, pmap, pmapOpt, pbind, ppure, hl]

theorem valueP_done_local (args : List (Option String × Ty)) (inp rest : List Char)
    (nm : String) (hl : localName inp = .done rest nm) :
    valueP args inp =
      match args.findIdx? (fun arg =>
          match arg.1 with
          | some oname => oname = nm
          | none => false) with
      | some i => .done rest (Value.Argument i)
      | none => .done rest (Value.Local nm) := by
  rw [valueP_eq, hl]

theorem valueP_local_error (args : List (Option String × Ty)) (inp : List Char)
    (hl : localName inp = .error) :
    valueP args inp =
      match constantP inp with
      | .done r c => .done r (Value.Constant c)
      | .fatal => .fatal
      | _ => .error := by
  rw [valueP_eq, hl]

theorem valueP_local_incomplete (args : List (Option String × Ty)) (inp : List Char)
    (hl : localName inp = .incomplete) :
    valueP args inp =
      match constantP inp with
      | .done r c => .done r (Value.Constant c)
      | .fatal => .fatal
      | _ => .error := by
  rw [valueP_eq, hl]

theorem valueP_local_fatal (args : List (Option String × Ty)) (inp : List Char)
    (hl : localName inp = .fatal) :
    valueP args inp = .fatal := by
  rw [valueP_eq, hl]

/-- C2: Argument-vs-Local resolution.  A `%name` occurrence in value
position parses to `Argument i` iff the enclosing function's argument
list has an entry named `name`, with `i` the first such position —
otherwise it parses to `Local name`; and conversely every `Argument i`
the value parser emits comes from such a lookup, so `i` is within bounds
and the `i`-th argument carries exactly the source-text name. -/
theorem c2_argument_resolution :
    (∀ (args : List (Option String × Ty)) (inp rest : List Char) (nm : String),
       localName inp = .done rest nm →
       (match args.findIdx? (fun arg =>
            match arg.1 with
            | some oname => oname = nm
            | none => false) with
        | some i =>
          valueP args inp = .done rest (Value.Argument i) ∧ i < args.length
            ∧ ∃ tp, args[i]? = some (some nm, tp)
        | none => valueP args inp = .done rest (Value.Local nm)))
    ∧ (∀ (args : List (Option String × Ty)) (inp rest : List Char) (i : Nat),
        valueP args inp = .done rest (Value.Argument i) →
        ∃ nm tp, localName inp = .done rest nm ∧ i < args.length
          ∧ args[i]? = some (some nm, tp)) := by
  constructor
  · intro args inp rest nm hl
    cases hf : args.findIdx? (fun arg =>
        match arg.1 with
        | some oname => oname = nm
        | none => false) with
    | some i =>
      obtain ⟨hlt, hp, -⟩ := List.findIdx?_eq_some_iff_getElem.mp hf
      refine ⟨?_, hlt, ?_⟩
      · rw [valueP_done_local args inp rest nm hl, hf]
      · cases harg : args[i].1 with
        | none => rw [harg] at hp; cases hp
        | some oname =>
          rw [harg] at hp
          have hnm : oname = nm := by simpa using hp
          subst hnm
          refine ⟨args[i].2, ?_⟩
          rw [List.getElem?_eq_getElem hlt, ← harg]
    | none =>
      rw [valueP_done_local args inp rest nm hl, hf]
  · intro args inp rest i hv
    cases hl : localName inp with
    | done r nm =>
      rw [valueP_done_local args inp r nm hl] at hv
      cases hf : args.findIdx? (fun arg =>
          match arg.1 with
          | some oname => oname = nm
          | none => false) with
      | some j =>
        rw [hf] at hv
        simp only [IResult.done.injEq, Value.Argument.injEq] at hv
        obtain ⟨hrest, hij⟩ := hv
        subst hrest
        subst hij
        obtain ⟨hlt, hp, -⟩ := List.findIdx?_eq_some_iff_getElem.mp hf
        refine ⟨nm, ?_⟩
        cases harg : args[j].1 with
        | none => rw [harg] at hp; cases hp
        | some oname =>
          rw [harg] at hp
          have hnm : oname = nm := by simpa using hp
          subst hnm
          exact ⟨args[j].2, rfl, hlt, by rw [List.getElem?_eq_getElem hlt, ← harg]⟩
      | none =>
        rw [hf] at hv
        simp at hv
    | error =>
      rw [valueP_local_error args inp hl] at hv
      cases hc : constantP inp with
      | done r c => rw [hc] at hv; simp at hv
      | error => rw [hc] at hv; simp at hv
      | incomplete => rw [hc] at hv; simp at hv
      | fatal => rw [hc] at hv; simp at hv
    | incomplete =>
      rw [valueP_local_incomplete args inp hl] at hv
      cases hc : constantP inp with
      | done r c => rw [hc] at hv; simp at hv
      | error => rw [hc] at hv; simp at hv
      | incomplete => rw [hc] at hv; simp at hv
      | fatal => rw [hc] at hv; simp at hv
    | fatal =>
      rw [valueP_local_fatal args inp hl] at hv
      simp at hv

/-- C2 witness: in a function with argument list `[(some "x", i32)]`, the
occurrence `%x` resolves to `Argument 0` with the 0-th argument named
`x`, as found by the lookup. -/
theorem c2_argument_resolution_witness :
    valueP [(some "x", Ty.Int 32)] ("%x, 0".toList) = .done (", 0".toList) (Value.Argument 0)
    ∧ 0 < [(some "x", Ty.Int 32)].length
    ∧ ∃ tp, [(some "x", Ty.Int 32)][0]? = some (some "x", tp) :=
  c2_argument_resolution.1 [(some "x", Ty.Int 32)] ("%x, 0".toList) (", 0".toList) "x" rfl

/- ### Parameter attributes: shared lemmas for C4 and C10 -/

theorem palt_error_iff {α : Type} (p q : Parser α) (inp : List Char) :
    palt p q inp = .error ↔ p inp = .error ∧ q inp = .error := by
  unfold palt
  cases h : p inp <;> simp

theorem pmap_error_iff {α β : Type} (f : α → β) (p : Parser α) (inp : List Char) :
    pmap f p inp = .error ↔ p inp = .error := by
  unfold pmap pbind ppure
  cases h : p inp <;> simp

/-- The error outcome of `par_attr` does not depend on the accumulator: it
is decided by the five keyword tags alone. -/
theorem parAttr_error_iff (a : ParAttrs) (inp : List Char) :
    parAttr a inp = .error ↔
      ptag "zeroext" inp = .error ∧ ptag "signext" inp = .error
        ∧ ptag "inreg" inp = .error ∧ ptag "byval" inp = .error
        ∧ ptag "noalias" inp = .error := by
  unfold parAttr paltl
  simp only [List.foldr]
  rw [palt_error_iff, palt_error_iff, palt_error_iff, palt_error_iff, palt_error_iff,
      pmap_error_iff, pmap_error_iff, pmap_error_iff, pmap_error_iff, pmap_error_iff]
  simp [pfail]

theorem parAttr_error_indep (a a2 : ParAttrs) (inp : List Char)
    (h : parAttr a inp = .error) : parAttr a2 inp = .error :=
  (parAttr_error_iff a2 inp).mpr ((parAttr_error_iff a inp).mp h)

/-- The `par_attrs` loop returns `Done` only at a non-empty remainder on
which `par_attr` fails, whatever the accumulator. -/
theorem parAttrsAux_done :
    ∀ (fuel : Nat) (inp : List Char) (a : ParAttrs) (rest : List Char) (r : ParAttrs),
      parAttrsAux fuel inp a = .done rest r →
      rest ≠ [] ∧ ∀ a2, parAttr a2 rest = .error := by
  intro fuel
  induction fuel with
  | zero =>
    intro inp a rest r h
    simp [parAttrsAux] at h
  | succ f ih =>
    intro inp a rest r h
    rw [parAttrsAux] at h
    by_cases he : inp.isEmpty = true
    · rw [if_pos he] at h
      simp at h
    · rw [if_neg he] at h
      cases hp : parAttr a inp with
      | done ninp a2 =>
        rw [hp] at h
        simp only [llvmSpaceP] at h
        by_cases hlen : (List.dropWhile isHSpace ninp).length < inp.length
        · rw [if_pos hlen] at h
          exact ih _ _ _ _ h
        · rw [if_neg hlen] at h
          simp at h
      | error =>
        rw [hp] at h
        simp only [IResult.done.injEq] at h
        obtain ⟨h1, h2⟩ := h
        subst h1
        constructor
        · intro hnil
          rw [hnil] at he
          exact he rfl
        · intro a2
          exact parAttr_error_indep a a2 inp hp
      | incomplete => rw [hp] at h; simp at h
      | fatal => rw [hp] at h; simp at h

/-- C10: the parameter-attribute accumulator never succeeds at the end of
the input: on the empty remainder `par_attrs` is `Incomplete` (the loop
falls through to `Incomplete(Needed::Unknown)`), and whenever it returns
`Done` the remainder is non-empty and does not begin with a recognized
attribute keyword. -/
theorem c10_par_attrs_incomplete :
    parAttrs [] = .incomplete
    ∧ (∀ (inp rest : List Char) (a : ParAttrs),
        parAttrs inp = .done rest a →
        rest ≠ [] ∧ ∀ a2, parAttr a2 rest = .error) := by
  constructor
  · rfl
  · intro inp rest a h
    exact parAttrsAux_done (inp.length + 1) inp ParAttrs.new rest a h

/-- C10 witness: on `"zeroext x"` the accumulator stops (`Done`) at the
non-attribute remainder `"x"`. -/
theorem c10_par_attrs_incomplete_witness :
    ("x".toList ≠ [] ∧ ∀ a2, parAttr a2 ("x".toList) = .error) :=
  c10_par_attrs_incomplete.2 ("zeroext x".toList) ("x".toList)
    { ParAttrs.new with zeroext := true } rfl

/- ### C4: parameter-attribute coverage -/

theorem isPrefixOf_append_self : ∀ (t r : List Char), t.isPrefixOf (t ++ r) = true := by
  intro t r
  induction t with
  | nil => simp
  | cons c cs ih => simp [List.isPrefixOf_cons₂, ih]

theorem ptag_exact (s : String) (rest : List Char) :
    ptag s (s.toList ++ rest) = .done rest () := by
  unfold ptag
  rw [if_pos (isPrefixOf_append_self _ _), List.drop_left]

/-- A tag whose first character differs from the input's first character
fails. -/
theorem ptag_first_char_ne (s : String) (c : Char) (cs : List Char)
    (c0 : Char) (rest0 : List Char)
    (hs : s.toList = c0 :: rest0) (hne : (c0 == c) = false) :
    ptag s (c :: cs) = .error := by
  have hne2 : (c == c0) = false := by
    rw [beq_eq_false_iff_ne] at *
    exact fun h => hne h.symm
  unfold ptag
  rw [hs]
  simp [List.isPrefixOf, hne, hne2]

/-- C4 counterexample: `sret` — one of the keywords the claim lists — is
not consumed and its flag is not set: the accumulator stops immediately,
leaving the input untouched and every flag false. -/
theorem c4_counterexample :
    parAttrs ("sret i32".toList) = .done ("sret i32".toList) ParAttrs.new := rfl

/-- C4 (amended): the accumulator recognizes exactly `zeroext`, `signext`,
`inreg`, `byval` and `noalias`; each is consumed and sets its flag, and
the loop consumes greedily until the remainder does not begin with one of
these keywords. -/
theorem c4_amended_par_attrs :
    (∀ (a : ParAttrs) (rest : List Char),
       parAttr a ("zeroext".toList ++ rest) = .done rest { a with zeroext := true })
    ∧ (∀ (a : ParAttrs) (rest : List Char),
       parAttr a ("signext".toList ++ rest) = .done rest { a with signext := true })
    ∧ (∀ (a : ParAttrs) (rest : List Char),
       parAttr a ("inreg".toList ++ rest) = .done rest { a with inreg := true })
    ∧ (∀ (a : ParAttrs) (rest : List Char),
       parAttr a ("byval".toList ++ rest) = .done rest { a with byval := true })
    ∧ (∀ (a : ParAttrs) (rest : List Char),
       parAttr a ("noalias".toList ++ rest) = .done rest { a with noalias := true })
    ∧ (∀ (inp rest : List Char) (a : ParAttrs),
        parAttrs inp = .done rest a → ∀ a2, parAttr a2 rest = .error) := by
  refine ⟨?_, ?_, ?_, ?_, ?_, ?_⟩
  · intro a rest
    have h1 : ptag "zeroext" ('z':: 'e':: 'r':: 'o':: 'e':: 'x':: 't'::rest) = .done rest () :=
      ptag_exact "zeroext" rest
    unfold parAttr paltl
    simp [palt, pmap, pbind, ppure, h1]
  · intro a rest
    have h0 : ptag "zeroext" ('s':: 'i':: 'g':: 'n':: 'e':: 'x':: 't'::rest) = .error :=
      ptag_first_char_ne _ _ _ 'z' ("eroext".toList) rfl rfl
    have h1 : ptag "signext" ('s':: 'i':: 'g':: 'n':: 'e':: 'x':: 't'::rest) = .done rest () :=
      ptag_exact "signext" rest
    unfold parAttr paltl
    simp [palt, pmap, pbind, ppure, h0, h1]
  · intro a rest
    have h0 : ptag "zeroext" ('i':: 'n':: 'r':: 'e':: 'g'::rest) = .error :=
      ptag_first_char_ne _ _ _ 'z' ("eroext".toList) rfl rfl
    have h1 : ptag "signext" ('i':: 'n':: 'r':: 'e':: 'g'::rest) = .error :=
      ptag_first_char_ne _ _ _ 's' ("ignext".toList) rfl rfl
    have h2 : ptag "inreg" ('i':: 'n':: 'r':: 'e':: 'g'::rest) = .done rest () :=
      ptag_exact "inreg" rest
    unfold parAttr paltl
    simp [palt, pmap, pbind, ppure, h0, h1, h2]
  · intro a rest
    have h0 : ptag "zeroext" ('b':: 'y':: 'v':: 'a':: 'l'::rest) = .error :=
      ptag_first_char_ne _ _ _ 'z' ("eroext".toList) rfl rfl
    have h1 : ptag "signext" ('b':: 'y':: 'v':: 'a':: 'l'::rest) = .error :=
      ptag_first_char_ne _ _ _ 's' ("ignext".toList) rfl rfl
    have h2 : ptag "inreg" ('b':: 'y':: 'v':: 'a':: 'l'::rest) = .error :=
      ptag_first_char_ne _ _ _ 'i' ("nreg".toList) rfl rfl
    have h3 : ptag "byval" ('b':: 'y':: 'v':: 'a':: 'l'::rest) = .done rest () :=
      ptag_exact "byval" rest
    unfold parAttr paltl
    simp [palt, pmap, pbind, ppure, h0, h1, h2, h3]
  · intro a rest
    have h0 : ptag "zeroext" ('n':: 'o':: 'a':: 'l':: 'i':: 'a':: 's'::rest) = .error :=
      ptag_first_char_ne _ _ _ 'z' ("eroext".toList) rfl rfl
    have h1 : ptag "signext" ('n':: 'o':: 'a':: 'l':: 'i':: 'a':: 's'::rest) = .error :=
      ptag_first_char_ne _ _ _ 's' ("ignext".toList) rfl rfl
    have h2 : ptag "inreg" ('n':: 'o':: 'a':: 'l':: 'i':: 'a':: 's'::rest) = .error :=
      ptag_first_char_ne _ _ _ 'i' ("nreg".toList) rfl rfl
    have h3 : ptag "byval" ('n':: 'o':: 'a':: 'l':: 'i':: 'a':: 's'::rest) = .error :=
      ptag_first_char_ne _ _ _ 'b' ("yval".toList) rfl rfl
    have h4 : ptag "noalias" ('n':: 'o':: 'a':: 'l':: 'i':: 'a':: 's'::rest) = .done rest () :=
      ptag_exact "noalias" rest
    unfold parAttr paltl
    simp [palt, pmap, pbind, ppure, h0, h1, h2, h3, h4]
  · intro inp rest a h
    exact (parAttrsAux_done (inp.length + 1) inp ParAttrs.new rest a h).2

/-- C4 witness: `zeroext` before `" i32"` is consumed with its flag set,
and the loop has stopped at `"i32"`, on which no attribute matches. -/
theorem c4_amended_par_attrs_witness :
    parAttr ParAttrs.new ("zeroext".toList ++ " i32".toList)
        = .done (" i32".toList) { ParAttrs.new with zeroext := true }
    ∧ (∀ a2, parAttr a2 ("i32".toList) = .error) :=
  ⟨c4_amended_par_attrs.1 ParAttrs.new (" i32".toList),
   c4_amended_par_attrs.2.2.2.2.2 ("zeroext i32".toList) ("i32".toList)
     { ParAttrs.new with zeroext := true } rfl⟩

/- ### C8: instruction metadata annotations -/

theorem takeWhile_append_all {p : Char → Bool} :
    ∀ (l r : List Char), (∀ c ∈ l, p c = true) →
      (l ++ r).takeWhile p = l ++ r.takeWhile p := by
  intro l
  induction l with
  | nil => intro r _; rfl
  | cons c cs ih =>
    intro r hall
    have hc : p c = true := hall c (List.mem_cons_self c cs)
    simp only [List.cons_append, List.takeWhile_cons, hc, if_true]
    rw [ih r (fun x hx => hall x (List.mem_cons_of_mem c hx))]

/-- Splitting `pcharRun` at the first character failing the predicate. -/
theorem pcharRun_exact {p : Char → Bool} (l r : List Char)
    (hl : ∀ c ∈ l, p c = true) (hne : l ≠ [])
    (hr : match r with | [] => True | c :: _ => p c = false) :
    pcharRun p (l ++ r) = .done r l := by
  have ht : (l ++ r).takeWhile p = l := by
    rw [takeWhile_append_all l r hl]
    cases r with
    | nil => simp
    | cons c cs =>
      simp only at hr
      rw [List.takeWhile_cons, if_neg (by simp [hr]), List.append_nil]
  unfold pcharRun
  simp only [ht]
  rw [if_neg (by simp [hne]), List.drop_left]

/-- Splitting `pisNotL` at the first character of the stop set. -/
theorem pisNotL_exact (bad : List Char) (l r : List Char)
    (hl : ∀ c ∈ l, bad.contains c = false) (hne : l ≠ [])
    (hr : match r with | [] => True | c :: _ => bad.contains c = true) :
    pisNotL bad (l ++ r) = .done r l := by
  have ht : (l ++ r).takeWhile (fun c => ¬ bad.contains c) = l := by
    rw [takeWhile_append_all l r (by intro c hc; simpa using hl c hc)]
    cases r with
    | nil => simp
    | cons c cs =>
      simp only at hr
      rw [List.takeWhile_cons, if_neg (by simpa using hr), List.append_nil]
  unfold pisNotL
  simp only [ht]
  rw [if_neg (by simp [hne]), List.drop_left]

theorem llvmSpaceP_no_space (c : Char) (cs : List Char) (hc : isHSpace c = false) :
    llvmSpaceP (c :: cs) = .done (c :: cs) () := by
  unfold llvmSpaceP
  rw [List.dropWhile_cons, if_neg (by simp [hc])]

/-- `llvm_space` on a leading comma consumes nothing. -/
theorem llvmSpaceP_comma (cs : List Char) : llvmSpaceP (',' :: cs) = .done (',' :: cs) () :=
  llvmSpaceP_no_space ',' cs rfl

/-- `llvm_space` before `!` eats exactly the one separating blank. -/
theorem llvmSpaceP_space_bang (cs : List Char) :
    llvmSpaceP (' ' :: '!' :: cs) = .done ('!' :: cs) () := by
  unfold llvmSpaceP
  rw [List.dropWhile_cons, if_pos (by simp [isHSpace]),
      List.dropWhile_cons, if_neg (by simp [isHSpace])]

theorem pchar_cons_self (c : Char) (cs : List Char) :
    pchar c (c :: cs) = .done cs () := by
  unfold pchar
  simp

/-- One rendered annotation parses to its kind/id pair, leaving the
following input (which must not start with a digit). -/
theorem instMetaP_render (nm ds r2 : List Char)
    (hnm1 : nm ≠ []) (hnm2 : ∀ c ∈ nm, annotStopChars.contains c = false)
    (hds1 : ds ≠ []) (hds2 : ∀ c ∈ ds, c.isDigit = true)
    (hr2 : match r2 with | [] => True | c :: _ => c.isDigit = false) :
    instMetaP (renderAnnot (nm, ds) ++ r2) = .done r2 (String.mk nm, digitsToNat ds) := by
  have hname : pisNotL [' ', '\t', '\r', '\n'] (nm ++ (' ' :: '!' :: (ds ++ r2)))
      = .done (' ' :: '!' :: (ds ++ r2)) nm := by
    refine pisNotL_exact _ nm (' ' :: '!' :: (ds ++ r2)) ?_ hnm1 (by simp)
    intro c hc
    exact hnm2 c hc
  have hdig : pcharRun Char.isDigit (ds ++ r2) = .done r2 ds :=
    pcharRun_exact ds r2 hds2 hds1 hr2
  simp only [renderAnnot, List.cons_append, List.nil_append, List.append_assoc]
  simp only [instMetaP, pbind, pmap, ppure, parseU64, digitP, llvmSpaceP_comma,
    pchar_cons_self, llvmSpaceP_space_bang, hname, hdig]

/-- A rendered annotation is at least five characters longer than what
follows it. -/
theorem renderAnnot_length (a : List Char × List Char) (x : List Char) :
    x.length < (renderAnnot a ++ x).length := by
  simp [renderAnnot]
  omega

/-- On input that does not begin an annotation, `instMetaP` fails. -/
theorem instMetaP_stop (c : Char) (cs : List Char)
    (hc1 : isHSpace c = false) (hc2 : ¬ c = ',') :
    instMetaP (c :: cs) = .error := by
  simp only [instMetaP, pbind, llvmSpaceP_no_space c cs hc1]
  simp [pchar, hc2]

/-- The annotation fold consumes exactly a rendered annotation sequence,
accumulating the bindings left to right (later kinds replacing earlier
ones). -/
theorem metaFold_render :
    ∀ (annots : List (List Char × List Char)) (fuel : Nat)
      (acc : List (String × Nat)) (rest : List Char),
      (∀ a ∈ annots, validAnnot a) → restOk rest →
      (renderAnnots annots ++ rest).length < fuel →
      pmany0Aux instMetaP (fun mp nv => alInsert nv.1 nv.2 mp) fuel
          (renderAnnots annots ++ rest) acc
        = .done rest
            (annots.foldl (fun mp a => alInsert (String.mk a.1) (digitsToNat a.2) mp) acc) := by
  intro annots
  induction annots with
  | nil =>
    intro fuel acc rest _ hrest hfuel
    simp only [renderAnnots, List.map_nil, List.flatten_nil, List.nil_append] at hfuel ⊢
    cases fuel with
    | zero => omega
    | succ f =>
      rw [pmany0Aux]
      cases rest with
      | nil => simp
      | cons c cs =>
        simp only [restOk] at hrest
        rw [if_neg (by simp)]
        simp only [instMetaP_stop c cs hrest.1 hrest.2.1]
        rfl
  | cons a as ih =>
    intro fuel acc rest hva hrest hfuel
    obtain ⟨hnm1, hnm2, hds1, hds2⟩ := hva a (List.mem_cons_self a as)
    have hinner : ∀ b ∈ as, validAnnot b := fun b hb => hva b (List.mem_cons_of_mem a hb)
    have hshape : renderAnnots (a :: as) ++ rest
        = renderAnnot a ++ (renderAnnots as ++ rest) := by
      simp [renderAnnots]
    have hr2 : match renderAnnots as ++ rest with
        | [] => True
        | c :: _ => c.isDigit = false := by
      cases as with
      | nil =>
        simp only [renderAnnots, List.map_nil, List.flatten_nil, List.nil_append]
        cases rest with
        | nil => trivial
        | cons c cs => exact (hrest).2.2
      | cons b bs =>
        simp only [renderAnnots, List.map_cons, List.flatten_cons, renderAnnot,
          List.cons_append, List.append_assoc]
        rfl
    have hinst : instMetaP (renderAnnots (a :: as) ++ rest)
        = .done (renderAnnots as ++ rest) (String.mk a.1, digitsToNat a.2) := by
      rw [hshape]
      exact instMetaP_render a.1 a.2 (renderAnnots as ++ rest) hnm1 hnm2 hds1 hds2 hr2
    have hlen : (renderAnnots as ++ rest).length < (renderAnnots (a :: as) ++ rest).length := by
      rw [hshape]
      exact renderAnnot_length a (renderAnnots as ++ rest)
    cases fuel with
    | zero => omega
    | succ f =>
      rw [pmany0Aux]
      rw [if_neg (by rw [hshape]; simp [renderAnnot])]
      simp only [hinst]
      rw [if_pos hlen, List.foldl_cons]
      exact ih f (alInsert (String.mk a.1) (digitsToNat a.2) acc) rest hinner hrest
        (by omega)

theorem lastValueFrom_shift (k : String) :
    ∀ (as : List (List Char × List Char)) (i : Option Nat),
      lastValueFrom k i as =
        match lastValueFrom k none as with
        | some v => some v
        | none => i := by
  intro as
  induction as with
  | nil => intro i; simp [lastValueFrom]
  | cons a as ih =>
    intro i
    show lastValueFrom k (if String.mk a.1 = k then some (digitsToNat a.2) else i) as
      = match lastValueFrom k (if String.mk a.1 = k then some (digitsToNat a.2) else none) as with
        | some v => some v
        | none => i
    rw [ih (if String.mk a.1 = k then some (digitsToNat a.2) else i),
        ih (if String.mk a.1 = k then some (digitsToNat a.2) else none)]
    cases h : lastValueFrom k none as with
    | some v => rfl
    | none => by_cases hk : String.mk a.1 = k <;> simp [hk]

theorem alLookup_mdOf_fold (k : String) :
    ∀ (as : List (List Char × List Char)) (acc : List (String × Nat)),
      alLookup k (as.foldl (fun mp a => alInsert (String.mk a.1) (digitsToNat a.2) mp) acc)
        = match lastValueFrom k none as with
          | some v => some v
          | none => alLookup k acc := by
  intro as
  induction as with
  | nil => intro acc; simp [lastValueFrom]
  | cons a as ih =>
    intro acc
    rw [List.foldl_cons, ih]
    have hcons : lastValueFrom k none (a :: as)
        = lastValueFrom k (if String.mk a.1 = k then some (digitsToNat a.2) else none) as := rfl
    rw [hcons,
      lastValueFrom_shift k as (if String.mk a.1 = k then some (digitsToNat a.2) else none)]
    cases h : lastValueFrom k none as with
    | some v => rfl
    | none =>
      have hred : (match (none : Option Nat) with
          | some v => some v
          | none => if String.mk a.1 = k then some (digitsToNat a.2) else none)
        = if String.mk a.1 = k then some (digitsToNat a.2) else none := rfl
      rw [hred]
      by_cases hk : String.mk a.1 = k
      · subst hk
        rw [if_pos rfl, alLookup_alInsert_self]
      · rw [if_neg hk, alLookup_alInsert_ne k (String.mk a.1) (digitsToNat a.2) hk]

theorem lastValueFrom_none_isSome (k : String) :
    ∀ (as : List (List Char × List Char)),
      (lastValueFrom k none as).isSome = true ↔ ∃ a ∈ as, String.mk a.1 = k := by
  intro as
  induction as with
  | nil => simp [lastValueFrom]
  | cons a as ih =>
    have hcons : lastValueFrom k none (a :: as)
        = lastValueFrom k (if String.mk a.1 = k then some (digitsToNat a.2) else none) as := rfl
    rw [hcons,
      lastValueFrom_shift k as (if String.mk a.1 = k then some (digitsToNat a.2) else none)]
    cases h : lastValueFrom k none as with
    | some v =>
      have hred : (match (some v : Option Nat) with
          | some v => some v
          | none => if String.mk a.1 = k then some (digitsToNat a.2) else none)
        = some v := rfl
      rw [hred]
      simp only [Option.isSome_some, true_iff]
      obtain ⟨b, hb, hbk⟩ := ih.mp (by rw [h]; rfl)
      exact ⟨b, List.mem_cons_of_mem a hb, hbk⟩
    | none =>
      have hred : (match (none : Option Nat) with
          | some v => some v
          | none => if String.mk a.1 = k then some (digitsToNat a.2) else none)
        = if String.mk a.1 = k then some (digitsToNat a.2) else none := rfl
      rw [hred]
      by_cases hk : String.mk a.1 = k
      · rw [if_pos hk]
        simp only [Option.isSome_some, true_iff]
        exact ⟨a, List.mem_cons_self a as, hk⟩
      · rw [if_neg hk]
        simp only [Option.isSome_none, Bool.false_eq_true, false_iff]
        intro hex
        obtain ⟨b, hb, hbk⟩ := hex
        rcases List.mem_cons.mp hb with hb1 | hb2
        · rw [hb1] at hbk; exact hk hbk
        · have := ih.mpr ⟨b, hb2, hbk⟩
          rw [h] at this
          cases this

/-- C8: instruction metadata annotations.  When an instruction's content
parse leaves a rendered `, !kind !N` annotation sequence (followed by
input that starts none), the instruction parser consumes exactly the
annotations and its metadata map is their fold: its keys are exactly the
`!kind` identifiers of the sequence and the value stored under each key
is the integer following the matching `!` (the last one for a repeated
kind, as `HashMap::insert` replaces). -/
theorem c8_instruction_metadata :
    ∀ (args : List (Option String × Ty)) (inp : List Char)
      (annots : List (List Char × List Char)) (rest : List Char) (c : InstructionC),
      (∀ a ∈ annots, validAnnot a) → restOk rest →
      instructionCP args inp = .done (renderAnnots annots ++ rest) c →
      instructionP args inp = .done rest (Instruction.mk c (mdOf annots))
      ∧ (∀ k, (alLookup k (mdOf annots)).isSome = true ↔ ∃ a ∈ annots, String.mk a.1 = k)
      ∧ (∀ k, alLookup k (mdOf annots) = lastValue k annots) := by
  intro args inp annots rest c hva hrest hc
  have hmd : ∀ k, alLookup k (mdOf annots)
      = match lastValueFrom k none annots with
        | some v => some v
        | none => none := by
    intro k
    exact alLookup_mdOf_fold k annots []
  refine ⟨?_, ?_, ?_⟩
  · have hfold := metaFold_render annots ((renderAnnots annots ++ rest).length + 1) [] rest
      hva hrest (by omega)
    unfold instructionP
    unfold pbind
    rw [hc]
    simp only [pfoldMany0, hfold, ppure, mdOf]
  · intro k
    rw [hmd k]
    cases h : lastValueFrom k none annots with
    | some v =>
      simp only [Option.isSome_some, true_iff]
      exact (lastValueFrom_none_isSome k annots).mp (by rw [h]; rfl)
    | none =>
      simp only [Option.isSome_none, Bool.false_eq_true, false_iff]
      intro hex
      have := (lastValueFrom_none_isSome k annots).mpr hex
      rw [h] at this
      cases this
  · intro k
    rw [hmd k]
    show _ = lastValueFrom k none annots
    cases h : lastValueFrom k none annots with
    | some v => rfl
    | none => rfl

/-- C8 witness: `unreachable, !dbg !5, !x !7` parses to the unreachable
terminator with metadata map `[dbg ↦ 5, x ↦ 7]`. -/
theorem c8_instruction_metadata_witness :
    instructionP [] ("unreachable, !dbg !5, !x !7\n".toList)
        = .done ['\n']
            (Instruction.mk (InstructionC.Term Terminator.Unreachable)
              (mdOf [(['d', 'b', 'g'], ['5']), (['x'], ['7'])]))
    ∧ (∀ k, (alLookup k (mdOf [(['d', 'b', 'g'], ['5']), (['x'], ['7'])])).isSome = true
        ↔ ∃ a ∈ [(['d', 'b', 'g'], ['5']), (['x'], ['7'])], String.mk a.1 = k)
    ∧ (∀ k, alLookup k (mdOf [(['d', 'b', 'g'], ['5']), (['x'], ['7'])])
        = lastValue k [(['d', 'b', 'g'], ['5']), (['x'], ['7'])]) :=
  c8_instruction_metadata [] ("unreachable, !dbg !5, !x !7\n".toList)
    [(['d', 'b', 'g'], ['5']), (['x'], ['7'])] ['\n']
    (InstructionC.Term Terminator.Unreachable)
    (by
      intro a ha
      rcases List.mem_cons.mp ha with h1 | h2
      · rw [h1]; exact ⟨by decide, by decide, by decide, by decide⟩
      · rcases List.mem_cons.mp h2 with h3 | h4
        · rw [h3]; exact ⟨by decide, by decide, by decide, by decide⟩
        · cases h4)
    ⟨by decide, by decide, by decide⟩ rfl

/-- C9: whitespace idempotence.  At every point between top-level elements
the driver continues with `moduleLoop _ _ (skipWsNl rest)`; inserting extra
horizontal whitespace or blank lines there does not change the parse.
Concretely, a two-element module parses to the same Module after blank
lines and trailing spaces are inserted between its elements. -/
theorem c9_whitespace :
    (∀ (fuel : Nat) (m : Module) (w s : List Char),
       (∀ c ∈ w, isSkipChar c = true) →
       moduleLoop fuel m (skipWsNl (w ++ s)) = moduleLoop fuel m (skipWsNl s))
    ∧ moduleP c9BaseInput = moduleP c9SpacedInput := by
  constructor
  · intro fuel m w s hall
    unfold skipWsNl
    rw [dropWhile_append_of_all w s hall]
  · rfl

/-- C9 witness: the whitespace-insensitivity lemma applied at a concrete
point — two skip characters (a space and a newline) in front of a concrete
remainder leave the driver's continuation unchanged. -/
theorem c9_whitespace_witness :
    moduleLoop 5 emptyModule (skipWsNl ((' ' :: Char.ofNat 10 :: []) ++ "target".toList))
      = moduleLoop 5 emptyModule (skipWsNl "target".toList) :=
  c9_whitespace.1 5 emptyModule (' ' :: Char.ofNat 10 :: []) "target".toList (by decide)

end LLVM
